import Mathlib

/-!
Shallow embedding of the agentic-loop library (`runAgentSession` and its
helpers from `src/agent-session.ts` / `src/types.ts`).

The generation backend, the per-turn uncaught faults, and the summarization
hooks are external collaborators; they are modelled as an oracle script
`Nat → TurnOutcome` consumed one entry per turn.  All observable callback
invocations are recorded as an event trace.  Suspension handling (the
reserved `__suspend__` marker, the `onSuspend` callback, `suspendInfo`, and
the `suspended` completion reason) is absent from the shipped
implementation file and is modelled from the spec where noted.
-/

namespace AgenticLoop

/-- Message roles of the public `Message` type (`types.ts`). -/
inductive Role where
  | user
  | assistant
deriving DecidableEq, Repr

/-- A conversation message: role plus content.  Structured content is
serialized to text, as `estimateTokenCount` does in the source. -/
structure Message where
  role : Role
  content : String
deriving DecidableEq, Repr

/-- Terminal completion reasons.  The first three are the enum of
`types.ts`; `suspended` is modelled from the spec (the suspension feature
is declared in the tests and README but its implementation file is not in
the sources). -/
inductive CompletionReason where
  | task_complete
  | max_turns
  | error
  | suspended
deriving DecidableEq, Repr

/-- A tool-result payload, modelled only as far as the classifier probes
it: JS-object-ness, the reserved marker fields, and the accompanying data.
`taskCompleteMarker` models `__task_complete__`; `suspendMarker` models
`__suspend__` (the latter modelled from the spec). -/
structure Payload where
  isObject : Bool
  taskCompleteMarker : Bool
  suspendMarker : Bool
  summary : String
  resultData : Option String
  reason : String
  data : Option String
deriving DecidableEq, Repr

/-- A tool invocation request as reported by the backend (`result.toolCalls`). -/
structure ToolCallReq where
  toolName : String
  invalid : Bool
  errorMessage : String
deriving DecidableEq, Repr

/-- A tool result entry as reported by the backend (`result.toolResults`). -/
structure ToolResultEntry where
  toolName : String
  output : Payload
deriving DecidableEq, Repr

/-- Outcome of one of the optional summarization hooks
(`onBeforeSummarize` / `onAfterSummarize`): absent, throwing, or
returning a message array. -/
inductive HookOutcome where
  | absent
  | fails (msg : String)
  | returns (msgs : List Message)
deriving DecidableEq, Repr

/-- Outcome of the internal summarization backend call (`summarizeMessages`). -/
inductive SummOutcome where
  | fails (msg : String)
  | returns (text : String)
deriving DecidableEq, Repr

/-- Oracle for one summarization attempt: what each of the three steps of
the protocol would produce. -/
structure SummarizeOracle where
  beforeHook : HookOutcome
  summarizeCall : SummOutcome
  afterHook : HookOutcome
deriving DecidableEq, Repr

/-- A successful `generateText` response: assistant text (empty string when
none, matching the JS truthiness check `if (result.text)`), tool call
requests, tool results, and the SDK response messages appended verbatim.
`summOracle` carries the environment of a summarization attempt of this
turn, if one triggers. -/
structure GenResult where
  text : String
  toolCalls : List ToolCallReq
  toolResults : List ToolResultEntry
  responseMessages : List Message
  summOracle : SummarizeOracle
deriving DecidableEq, Repr

/-- The environment outcome of one turn: a backend invocation failure (or
timeout, treated identically), a successful generation, or an uncaught
fault thrown inside the loop body (e.g. by a callback). -/
inductive TurnOutcome where
  | backendError (msg : String)
  | success (r : GenResult)
  | fault (f : String)
deriving DecidableEq, Repr

/-- Error phases of `ErrorInfo` (`types.ts`). -/
inductive Phase where
  | llm
  | tool_call
deriving DecidableEq, Repr

/-- A caller-registered tool, modelled by its description; execution
behaviour is the backend's business in this architecture. -/
structure ToolSpec where
  description : String
deriving DecidableEq, Repr

/-- Suspension info recorded when a suspension signal terminates the
session.  Modelled from the spec: `SessionSuspendInfo` with reason, data
and turn, as asserted by the repository tests. -/
structure SuspendInfo where
  reason : String
  data : Option String
  turn : Nat
deriving DecidableEq, Repr

/-- Observable events: each callback invocation, plus `backendInvoke`
instrumenting every generation-backend invocation with the exact history
and tool catalog passed to it. -/
inductive Event where
  | turnStart (turn : Nat)
  | backendInvoke (history : List Message) (tools : List (String × ToolSpec))
  | assistantMessage (text : String) (turn : Nat)
  | toolCall (name : String) (turn : Nat)
  | errorEv (phase : Phase) (turn : Nat)
  | toolResult (name : String) (idx : Nat) (turn : Nat)
  | suspendEv (reason : String) (turn : Nat)
  | messagesUpdate (msgs : List Message)
  | completeEv (reason : CompletionReason) (totalTurns : Nat)
deriving DecidableEq, Repr

/-- The mutable session state (`SessionState` in `types.ts`), extended
with `suspendInfo` modelled from the spec. -/
structure SessionState where
  messages : List Message
  turnCount : Nat
  finalOutput : String
  shouldContinue : Bool
  taskResult : Option String
  completionReason : CompletionReason
  suspendInfo : Option SuspendInfo
deriving DecidableEq, Repr

/-- Session configuration (`AgentSessionConfig`), restricted to the fields
the loop dynamics read. -/
structure SessionConfig where
  tools : List (String × ToolSpec)
  initialMessages : Option (List Message)
  initialMessage : Option String
  maxTurns : Option Nat
  tokenLimit : Option Nat
deriving DecidableEq, Repr

/-- Result of a session (`AgentSessionResult`), with `suspendInfo`
modelled from the spec. -/
structure AgentSessionResult where
  finalOutput : String
  totalTurns : Nat
  completionReason : CompletionReason
  messages : List Message
  taskResult : Option String
  suspendInfo : Option SuspendInfo
  error : Option String
deriving DecidableEq, Repr

/-- The built-in task-completion tool (`createTaskCompleteTool`). -/
def taskCompleteToolSpec : ToolSpec :=
  { description := "Mark the current task as complete. Call this when you have finished all work and deliverables. Provide a summary of what was accomplished." }

/-- Arguments of the built-in task-completion tool. -/
structure TaskCompleteArgs where
  summary : String
  result : Option String
deriving DecidableEq, Repr

/-- The `execute` body of the built-in task-completion tool: returns the
payload carrying the reserved completion marker. -/
def taskCompleteExecute (args : TaskCompleteArgs) : Payload :=
  { isObject := true, taskCompleteMarker := true, suspendMarker := false,
    summary := args.summary, resultData := args.result, reason := "", data := none }

/-- The tool catalog passed to the backend each turn: the JS object spread
`allTools = spread of sessionConfig.tools with task_complete mapped to the
built-in tool` — an existing caller entry under the reserved name keeps
its position but its value is replaced by the built-in tool. -/
def mergeToolsList (callerTools : List (String × ToolSpec)) : List (String × ToolSpec) :=
  if callerTools.any (fun p => p.1 == "task_complete") then
    callerTools.map (fun p =>
      if p.1 == "task_complete" then ("task_complete", taskCompleteToolSpec) else p)
  else
    callerTools ++ [("task_complete", taskCompleteToolSpec)]

/-- Catalog lookup by tool name. -/
def lookupTool (ts : List (String × ToolSpec)) (name : String) : Option ToolSpec :=
  (ts.find? (fun p => p.1 == name)).map Prod.snd

/-- The classifier over a tool-result payload (§4.5): the completion check
is `resultData and typeof is object and the reserved completion marker`;
the suspension check is modelled from the spec with the reserved
suspension marker. -/
inductive Signal where
  | continueSig
  | completed (summary : String) (resultData : Option String)
  | suspendedSig (reason : String) (data : Option String)
deriving DecidableEq, Repr

/-- Structural recognition of the reserved markers on a payload. -/
def classifyPayload (p : Payload) : Signal :=
  if p.isObject && p.taskCompleteMarker then Signal.completed p.summary p.resultData
  else if p.isObject && p.suspendMarker then Signal.suspendedSig p.reason p.data
  else Signal.continueSig

/-- True exactly on the terminal signal kinds. -/
def isTerminal : Signal → Bool
  | Signal.continueSig => false
  | Signal.completed _ _ => true
  | Signal.suspendedSig _ _ => true

/-- The reminder text (`createReminderMessage`). -/
def createReminderMessage : String :=
  "REMINDER: If you have completed your task, you must call the task_complete tool with a summary of what you accomplished. If you are not done yet, please continue working or explain what you need."

/-- The reminder user message injected by the idle nudge. -/
def reminderMessage : Message := Message.mk Role.user createReminderMessage

/-- The synthetic user message appended after a backend failure. -/
def retryMessageText (m : String) : String :=
  "ERROR: LLM call failed with: " ++ m ++ "\n\nPlease try again."

/-- The synthetic closing user message of a completion turn. -/
def taskCompleteClosingMessage : Message :=
  Message.mk Role.user "Task marked as complete. Session ending."

/-- Modelled from the spec: the synthetic closing user message of a
suspension turn (§4.2 step 6 mandates one closing user message for either
terminal kind; its exact text for suspension is unspecified). -/
def suspendClosingMessage : Message :=
  Message.mk Role.user "Session suspended. Awaiting external input."

/-- Token estimate (`estimateTokenCount`): total content characters
divided by 4, rounded up. -/
def estimateTokenCount (msgs : List Message) : Nat :=
  (msgs.foldl (fun sum m => sum + m.content.length) 0 + 3) / 4

/-- Effective max turns: `sessionConfig.maxTurns or-else 50`, where a
configured 0 is falsy in JS and also falls back to 50. -/
def maxTurnsEff (cfg : SessionConfig) : Nat :=
  match cfg.maxTurns with
  | none => 50
  | some n => if n = 0 then 50 else n

/-- Effective token limit: `if (sessionConfig.tokenLimit)` — absent or 0
disables summarization. -/
def effTokenLimit (cfg : SessionConfig) : Option Nat :=
  match cfg.tokenLimit with
  | none => none
  | some l => if l = 0 then none else some l

/-- `sessionConfig.initialMessages or-else empty`. -/
def effInitialMessages (cfg : SessionConfig) : List Message :=
  cfg.initialMessages.getD []

/-- The default starting message for fresh sessions. -/
def defaultInitialMessage : String := "Begin working on your assigned task."

/-- The derived initial message reported on the session handle: a resume
marker when resuming, otherwise `initialMessage or-else` the default text
(an empty configured string is falsy in JS and yields the default). -/
def derivedInitialMessage (cfg : SessionConfig) : String :=
  if (effInitialMessages cfg).length > 0 then
    "Resumed from " ++ toString (effInitialMessages cfg).length ++ " previous messages"
  else
    match cfg.initialMessage with
    | none => defaultInitialMessage
    | some s => if s = "" then defaultInitialMessage else s

/-- The continuation prompt appended when resuming an assistant-terminated
history. -/
def pleaseContinueMessage : Message := Message.mk Role.user "Please continue."

/-- Initial session state (`runAgentSession` lines 494-515): seeds the
turn counter with `floor(initialMessages.length / 2)`, starts fresh
sessions with the derived initial user message, and appends the
continuation prompt when the resumed history ends with an assistant
message. -/
def initialState (cfg : SessionConfig) : SessionState :=
  let ims := effInitialMessages cfg
  let base : SessionState :=
    { messages := ims, turnCount := ims.length / 2, finalOutput := "",
      shouldContinue := true, taskResult := none,
      completionReason := CompletionReason.max_turns, suspendInfo := none }
  if ims.length = 0 then
    { base with messages := [Message.mk Role.user (derivedInitialMessage cfg)] }
  else
    match ims.getLast? with
    | some m =>
      if m.role == Role.assistant then { base with messages := ims ++ [pleaseContinueMessage] }
      else base
    | none => base

/-- `isAgentIdle`: the history is non-empty and its last message is from
the assistant. -/
def isAgentIdle (st : SessionState) : Bool :=
  match st.messages.getLast? with
  | none => false
  | some m => m.role == Role.assistant

/-- Result of the summarization controller: the (possibly replaced)
history plus the events it fired. -/
structure SummarizeResult where
  messages : List Message
  events : List Event
deriving DecidableEq, Repr

/-- One summarization attempt (the try block of `runTurn` lines 387-446):
before hook, backend summarization call, 2-message replacement, after
hook, destructive history replacement, messages-update callback.  A
failure at any step aborts the protocol, leaving the history as it was
and firing nothing (the failure is only logged). -/
def applySummarization (o : SummarizeOracle) (msgs : List Message) : SummarizeResult :=
  match o.beforeHook with
  | HookOutcome.fails _ => { messages := msgs, events := [] }
  | _ =>
    match o.summarizeCall with
    | SummOutcome.fails _ => { messages := msgs, events := [] }
    | SummOutcome.returns summaryText =>
      let base := [Message.mk Role.user "Previous conversation summary:",
                   Message.mk Role.assistant summaryText]
      match o.afterHook with
      | HookOutcome.fails _ => { messages := msgs, events := [] }
      | HookOutcome.absent => { messages := base, events := [Event.messagesUpdate base] }
      | HookOutcome.returns final => { messages := final, events := [Event.messagesUpdate final] }

/-- The summarization controller guard: run the protocol only when a
token limit is configured and the estimate exceeds it. -/
def summarizeStep (cfg : SessionConfig) (o : SummarizeOracle) (msgs : List Message) :
    SummarizeResult :=
  match effTokenLimit cfg with
  | none => { messages := msgs, events := [] }
  | some limit =>
    if estimateTokenCount msgs > limit then applySummarization o msgs
    else { messages := msgs, events := [] }

/-- Events fired while narrating the backend's tool-call requests: a
malformed call is reported via the error callback (phase tool-call) and
skipped; a valid call is reported via the tool-call callback. -/
def toolCallEvents (turn : Nat) (calls : List ToolCallReq) : List Event :=
  calls.map (fun c =>
    if c.invalid then Event.errorEv Phase.tool_call turn else Event.toolCall c.toolName turn)

/-- Result of scanning the turn's tool results. -/
structure ProcessResult where
  events : List Event
  terminal : Option Signal
deriving DecidableEq, Repr

/-- Scan of `result.toolResults` (`runTurn` lines 320-361): the first
result carrying a terminal marker stops the scan (reporting nothing for
it beyond the suspend callback, modelled from the spec, in the suspension
case); ordinary results are reported via the tool-result callback. -/
def processToolResults (turn : Nat) : Nat → List ToolResultEntry → ProcessResult
  | _, [] => { events := [], terminal := none }
  | idx, r :: rs =>
    match classifyPayload r.output with
    | Signal.completed s d =>
      { events := [], terminal := some (Signal.completed s d) }
    | Signal.suspendedSig reason data =>
      { events := [Event.suspendEv reason turn],
        terminal := some (Signal.suspendedSig reason data) }
    | Signal.continueSig =>
      let pr := processToolResults turn (idx + 1) rs
      { events := Event.toolResult r.toolName idx turn :: pr.events,
        terminal := pr.terminal }

/-- Recording of assistant text (`runTurn` lines 264-275): a truthy
(non-empty) text becomes the candidate final output and fires the
assistant-message callback. -/
def applyText (r : GenResult) (turn : Nat) (st : SessionState) :
    SessionState × List Event :=
  if r.text = "" then (st, [])
  else ({ st with finalOutput := r.text }, [Event.assistantMessage r.text turn])

/-- Result of one turn: the mutated state, the events fired, and the
uncaught fault if one escaped the turn body. -/
structure TurnResult where
  state : SessionState
  events : List Event
  fault : Option String
deriving DecidableEq, Repr

/-- One turn of the loop (`runTurn`): increment the turn counter, fire
turn-start, invoke the backend (recorded with its exact history and the
merged tool catalog), then dispatch on the outcome.  A backend failure
appends the synthetic retry user message and returns with the session
still live.  On success: record text, narrate tool calls, scan tool
results; a terminal signal appends the response messages plus one closing
user message, sets the terminal fields and returns immediately; otherwise
the response messages are appended, the messages-update callback fires,
and the summarization controller runs. -/
def runTurn (cfg : SessionConfig) (outcome : TurnOutcome) (st : SessionState) : TurnResult :=
  let turn := st.turnCount + 1
  let st1 : SessionState := { st with turnCount := turn }
  match outcome with
  | TurnOutcome.fault f =>
    { state := st1, events := [Event.turnStart turn], fault := some f }
  | TurnOutcome.backendError msg =>
    let st2 := { st1 with messages := st1.messages ++ [Message.mk Role.user (retryMessageText msg)] }
    { state := st2,
      events := [Event.turnStart turn,
                 Event.backendInvoke st1.messages (mergeToolsList cfg.tools),
                 Event.errorEv Phase.llm turn,
                 Event.messagesUpdate st2.messages],
      fault := none }
  | TurnOutcome.success r =>
    let baseEvents := [Event.turnStart turn,
                       Event.backendInvoke st1.messages (mergeToolsList cfg.tools)]
    let st2 := (applyText r turn st1).1
    let textEvents := (applyText r turn st1).2
    if r.toolCalls = [] then
      let st3 := { st2 with messages := st2.messages ++ r.responseMessages }
      let su := summarizeStep cfg r.summOracle st3.messages
      { state := { st3 with messages := su.messages },
        events := baseEvents ++ textEvents ++ [Event.messagesUpdate st3.messages] ++ su.events,
        fault := none }
    else
      let callEvents := toolCallEvents turn r.toolCalls
      let pr := processToolResults turn 0 r.toolResults
      match pr.terminal with
      | some (Signal.completed _ d) =>
        { state := { st2 with
            messages := st2.messages ++ r.responseMessages ++ [taskCompleteClosingMessage],
            shouldContinue := false,
            completionReason := CompletionReason.task_complete,
            taskResult := d },
          events := baseEvents ++ textEvents ++ callEvents ++ pr.events,
          fault := none }
      | some (Signal.suspendedSig reason data) =>
        { state := { st2 with
            messages := st2.messages ++ r.responseMessages ++ [suspendClosingMessage],
            shouldContinue := false,
            completionReason := CompletionReason.suspended,
            suspendInfo := some (SuspendInfo.mk reason data turn) },
          events := baseEvents ++ textEvents ++ callEvents ++ pr.events,
          fault := none }
      | _ =>
        let st3 := { st2 with messages := st2.messages ++ r.responseMessages }
        let su := summarizeStep cfg r.summOracle st3.messages
        { state := { st3 with messages := su.messages },
          events := baseEvents ++ textEvents ++ callEvents ++ pr.events
                    ++ [Event.messagesUpdate st3.messages] ++ su.events,
          fault := none }

/-- Result of the idle check performed at the top of each loop iteration. -/
structure IdleResult where
  events : List Event
  counter : Nat
  state : SessionState
deriving DecidableEq, Repr

/-- The idle detector step (`runAgentSession` lines 529-549): when at
least one turn has run and the last message is from the assistant, the
streak grows; at the threshold of 2 a reminder user message is injected,
the streak resets to zero and the messages-update callback fires;
otherwise the streak resets to zero. -/
def idleStep (idleTurns : Nat) (st : SessionState) : IdleResult :=
  if st.turnCount > 0 && isAgentIdle st then
    if idleTurns + 1 >= 2 then
      let st2 := { st with messages := st.messages ++ [reminderMessage] }
      { events := [Event.messagesUpdate st2.messages], counter := 0, state := st2 }
    else
      { events := [], counter := idleTurns + 1, state := st }
  else
    { events := [], counter := 0, state := st }

/-- Result of the whole loop: accumulated events, final state, and the
first uncaught fault if one escaped. -/
structure LoopResult where
  events : List Event
  state : SessionState
  fault : Option String
deriving DecidableEq, Repr

/-- The session loop (`while shouldContinue and turnCount < maxTurns`):
idle check, then one turn; an uncaught fault aborts the loop carrying the
state as mutated so far.  The fuel argument only bounds recursion; every
turn increments the counter, so `maxTurns + 1` fuel always outlasts the
loop. -/
def runLoop (cfg : SessionConfig) (script : Nat → TurnOutcome) (maxT : Nat) :
    Nat → Nat → SessionState → LoopResult
  | 0, _, st => { events := [], state := st, fault := none }
  | fuel + 1, idleTurns, st =>
    if st.shouldContinue && decide (st.turnCount < maxT) then
      let ir := idleStep idleTurns st
      let tr := runTurn cfg (script ir.state.turnCount) ir.state
      match tr.fault with
      | some f =>
        { events := ir.events ++ tr.events, state := tr.state, fault := some f }
      | none =>
        let rest := runLoop cfg script maxT fuel ir.counter tr.state
        { events := ir.events ++ tr.events ++ rest.events,
          state := rest.state, fault := rest.fault }
    else
      { events := [], state := st, fault := none }

/-- Loop-exit adjustment (`runAgentSession` lines 555-559): when max turns
was reached while still continuing, force the max-turns reason and append
the explanatory marker to the final output. -/
def finalizeState (maxT : Nat) (st : SessionState) : SessionState :=
  if st.turnCount >= maxT && st.shouldContinue then
    { st with completionReason := CompletionReason.max_turns,
              finalOutput := st.finalOutput ++ "\n\n(Session ended - max turns reached)" }
  else st

/-- `state.finalOutput or-else "(no output)"`. -/
def orNoOutput (s : String) : String := if s = "" then "(no output)" else s

/-- The loop output of a session run from its initial state, with the
standard fuel. -/
def sessionLoopOutput (cfg : SessionConfig) (script : Nat → TurnOutcome) : LoopResult :=
  runLoop cfg script (maxTurnsEff cfg) (maxTurnsEff cfg + 1) 0 (initialState cfg)

/-- The whole session (`runAgentSession` promise body): initial
messages-update, the loop, then either the catch handler (error callback,
completion callback with reason error, fault attached to the result, no
re-throw) or the normal path (max-turns adjustment, completion callback,
result). -/
def runSession (cfg : SessionConfig) (script : Nat → TurnOutcome) :
    AgentSessionResult × List Event :=
  let lr := sessionLoopOutput cfg script
  match lr.fault with
  | some f =>
    ({ finalOutput := orNoOutput lr.state.finalOutput,
       totalTurns := lr.state.turnCount,
       completionReason := CompletionReason.error,
       messages := lr.state.messages,
       taskResult := lr.state.taskResult,
       suspendInfo := lr.state.suspendInfo,
       error := some f },
     Event.messagesUpdate (initialState cfg).messages ::
       (lr.events ++ [Event.errorEv Phase.llm lr.state.turnCount,
                      Event.completeEv CompletionReason.error lr.state.turnCount]))
  | none =>
    let st2 := finalizeState (maxTurnsEff cfg) lr.state
    ({ finalOutput := orNoOutput st2.finalOutput,
       totalTurns := st2.turnCount,
       completionReason := st2.completionReason,
       messages := st2.messages,
       taskResult := st2.taskResult,
       suspendInfo := st2.suspendInfo,
       error := none },
     Event.messagesUpdate (initialState cfg).messages ::
       (lr.events ++ [Event.completeEv st2.completionReason st2.turnCount]))

/-! Concrete instances used to exhibit counterexamples and witnesses. -/

/-- A one-word user message. -/
def msgU : Message := Message.mk Role.user "m"

/-- A trivial summarization oracle (hooks absent, call succeeds). -/
def okOracle : SummarizeOracle :=
  { beforeHook := HookOutcome.absent,
    summarizeCall := SummOutcome.returns "s",
    afterHook := HookOutcome.absent }

/-- A resumed-session configuration whose saved history (102 messages)
seeds the turn counter beyond the default max turns. -/
def cfgLongResume : SessionConfig :=
  { tools := [], initialMessages := some (List.replicate 102 msgU),
    initialMessage := none, maxTurns := none, tokenLimit := none }

/-- A backend that always fails. -/
def scriptAllErr : Nat → TurnOutcome := fun _ => TurnOutcome.backendError "x"

/-- A text-only backend response (assistant text, no tool calls). -/
def textOnlyResult : GenResult :=
  { text := "ok", toolCalls := [], toolResults := [],
    responseMessages := [Message.mk Role.assistant "ok"],
    summOracle := okOracle }

/-- A backend that always answers with text only. -/
def scriptAllText : Nat → TurnOutcome := fun _ => TurnOutcome.success textOnlyResult

/-- An assistant message used by concrete instances. -/
def msgA : Message := Message.mk Role.assistant "ok"

/-- A backend that answers with text twice and then fails. -/
def scriptTextThenErr : Nat → TurnOutcome := fun n =>
  if n < 2 then TurnOutcome.success textOnlyResult else TurnOutcome.backendError "stop"

/-- A resumed-session configuration whose saved history ends with an
assistant message. -/
def cfgResumeAssistant : SessionConfig :=
  { tools := [],
    initialMessages := some [Message.mk Role.user "hi", Message.mk Role.assistant "hello"],
    initialMessage := none, maxTurns := some 5, tokenLimit := none }

/-- A backend response that invokes the built-in completion tool. -/
def completionResult : GenResult :=
  { text := "",
    toolCalls := [{ toolName := "task_complete", invalid := false, errorMessage := "" }],
    toolResults := [{ toolName := "task_complete",
                      output := taskCompleteExecute { summary := "done", result := some "42" } }],
    responseMessages := [Message.mk Role.assistant "calling tool"],
    summOracle := okOracle }

/-- A fresh-session configuration with a starting message. -/
def cfgFresh : SessionConfig :=
  { tools := [], initialMessages := none, initialMessage := some "go",
    maxTurns := none, tokenLimit := none }

/-- A backend that fails exactly once and then completes the task. -/
def scriptFailThenComplete : Nat → TurnOutcome := fun n =>
  if n = 0 then TurnOutcome.backendError "boom" else TurnOutcome.success completionResult

/-- A payload carrying the reserved suspension marker. -/
def suspendPayload : Payload :=
  { isObject := true, taskCompleteMarker := false, suspendMarker := true,
    summary := "", resultData := none,
    reason := "waiting_for_approval", data := some "req-1" }

/-- An ordinary tool-result payload (no reserved markers). -/
def ordinaryPayload : Payload :=
  { isObject := true, taskCompleteMarker := false, suspendMarker := false,
    summary := "", resultData := some "data", reason := "", data := none }

/-- A backend response whose second tool result carries the suspension
marker, preceded by one ordinary result. -/
def suspendingResult : GenResult :=
  { text := "",
    toolCalls := [{ toolName := "lookup", invalid := false, errorMessage := "" },
                  { toolName := "wait_for_approval", invalid := false, errorMessage := "" }],
    toolResults := [{ toolName := "lookup", output := ordinaryPayload },
                    { toolName := "wait_for_approval", output := suspendPayload }],
    responseMessages := [Message.mk Role.assistant "asking for approval"],
    summOracle := okOracle }

/-- A backend whose first response suspends the session. -/
def scriptSuspendFirst : Nat → TurnOutcome := fun n =>
  if n = 0 then TurnOutcome.success suspendingResult else TurnOutcome.backendError "x"

/-- A fresh-session configuration with max turns 5. -/
def cfgFresh5 : SessionConfig :=
  { tools := [], initialMessages := none, initialMessage := some "go",
    maxTurns := some 5, tokenLimit := none }

/-- A summarization oracle whose backend call fails. -/
def failingOracle : SummarizeOracle :=
  { beforeHook := HookOutcome.absent,
    summarizeCall := SummOutcome.fails "summ down",
    afterHook := HookOutcome.absent }

/-- A caller-registered impostor under the reserved completion tool name. -/
def impostorToolSpec : ToolSpec := { description := "my own completion tool" }

/-- Does a summarization oracle have a failing step? -/
def hookFails : HookOutcome → Bool
  | HookOutcome.fails _ => true
  | _ => false

/-- Does the summarization backend call fail? -/
def callFails : SummOutcome → Bool
  | SummOutcome.fails _ => true
  | _ => false

/-- True when any of the three protocol steps fails. -/
def summFails (o : SummarizeOracle) : Bool :=
  hookFails o.beforeHook || callFails o.summarizeCall || hookFails o.afterHook

/-- Recognizer for backend-invocation events. -/
def isBackendInvokeEv : Event → Bool
  | Event.backendInvoke _ _ => true
  | _ => false

/-- Recognizer for completion-callback events. -/
def isCompleteEv : Event → Bool
  | Event.completeEv _ _ => true
  | _ => false

/-- Recognizer for a backend invocation on an assistant-terminated history. -/
def isAssistantTerminatedInvoke : Event → Bool
  | Event.backendInvoke h _ =>
    (match h.getLast? with
     | some m => m.role == Role.assistant
     | none => false)
  | _ => false

/-! Helper lemmas about the embedding. -/

theorem applyText_turnCount (r : GenResult) (turn : Nat) (st : SessionState) :
    (applyText r turn st).1.turnCount = st.turnCount := by
  unfold applyText
  split <;> rfl

theorem runTurn_turnCount (cfg : SessionConfig) (o : TurnOutcome) (st : SessionState) :
    (runTurn cfg o st).state.turnCount = st.turnCount + 1 := by
  cases o with
  | fault f => rfl
  | backendError msg => rfl
  | success r =>
    simp only [runTurn]
    split
    · simp [applyText_turnCount]
    · split <;> simp [applyText_turnCount]

theorem idleStep_turnCount (idleTurns : Nat) (st : SessionState) :
    (idleStep idleTurns st).state.turnCount = st.turnCount := by
  unfold idleStep
  split
  · split <;> rfl
  · rfl

theorem idleStep_shouldContinue (idleTurns : Nat) (st : SessionState) :
    (idleStep idleTurns st).state.shouldContinue = st.shouldContinue := by
  unfold idleStep
  split
  · split <;> rfl
  · rfl

theorem runLoop_not_continue (cfg : SessionConfig) (script : Nat → TurnOutcome) (maxT : Nat)
    (fuel idleTurns : Nat) (st : SessionState) (h : st.shouldContinue = false) :
    runLoop cfg script maxT fuel idleTurns st = { events := [], state := st, fault := none } := by
  cases fuel with
  | zero => rfl
  | succ n => simp [runLoop, h]

theorem runLoop_turnCount_le (cfg : SessionConfig) (script : Nat → TurnOutcome) (maxT : Nat)
    (fuel idleTurns : Nat) (st : SessionState) :
    (runLoop cfg script maxT fuel idleTurns st).state.turnCount ≤ max maxT st.turnCount := by
  induction fuel generalizing idleTurns st with
  | zero => simp [runLoop]
  | succ n ih =>
    simp only [runLoop]
    split
    · rename_i hcond
      simp only [Bool.and_eq_true, decide_eq_true_eq] at hcond
      have hlt : st.turnCount < maxT := hcond.2
      have h1 : (idleStep idleTurns st).state.turnCount = st.turnCount := idleStep_turnCount _ _
      have h2 :
          (runTurn cfg (script (idleStep idleTurns st).state.turnCount)
            (idleStep idleTurns st).state).state.turnCount = st.turnCount + 1 := by
        rw [runTurn_turnCount, h1]
      split
      · simp only []
        omega
      · have h3 := ih (idleStep idleTurns st).counter
          (runTurn cfg (script (idleStep idleTurns st).state.turnCount)
            (idleStep idleTurns st).state).state
        simp only []
        omega
    · simp

theorem initialState_turnCount (cfg : SessionConfig) :
    (initialState cfg).turnCount = (effInitialMessages cfg).length / 2 := by
  unfold initialState
  dsimp only
  split
  · rfl
  · split
    · split <;> rfl
    · rfl

theorem finalizeState_turnCount (maxT : Nat) (st : SessionState) :
    (finalizeState maxT st).turnCount = st.turnCount := by
  unfold finalizeState
  split <;> rfl

end AgenticLoop

namespace AgenticLoop

theorem applyText_messages (r : GenResult) (turn : Nat) (st : SessionState) :
    (applyText r turn st).1.messages = st.messages := by
  unfold applyText
  split <;> rfl

theorem mem_applyText_events (r : GenResult) (turn : Nat) (st : SessionState) (e : Event)
    (h : e ∈ (applyText r turn st).2) : e = Event.assistantMessage r.text turn := by
  unfold applyText at h
  split at h
  · simp at h
  · simp at h
    exact h

theorem mem_toolCallEvents (turn : Nat) (calls : List ToolCallReq) (e : Event)
    (h : e ∈ toolCallEvents turn calls) :
    (∃ nm, e = Event.toolCall nm turn) ∨ e = Event.errorEv Phase.tool_call turn := by
  unfold toolCallEvents at h
  rcases List.mem_map.mp h with ⟨c, _, rfl⟩
  by_cases hc : c.invalid
  · right; simp [hc]
  · left; exact ⟨c.toolName, by simp [hc]⟩

theorem mem_processToolResults_events (turn idx : Nat) (rs : List ToolResultEntry) (e : Event)
    (h : e ∈ (processToolResults turn idx rs).events) :
    (∃ nm i, e = Event.toolResult nm i turn) ∨ (∃ rsn, e = Event.suspendEv rsn turn) := by
  induction rs generalizing idx with
  | nil => simp [processToolResults] at h
  | cons r rest ih =>
    simp only [processToolResults] at h
    rcases hc : classifyPayload r.output with _ | ⟨s, d⟩ | ⟨rsn, dt⟩ <;> rw [hc] at h
    · simp only [List.mem_cons] at h
      rcases h with rfl | h
      · exact Or.inl ⟨r.toolName, idx, rfl⟩
      · exact ih (idx + 1) h
    · simp at h
    · simp at h
      exact Or.inr ⟨rsn, h⟩

theorem mem_applySummarization_events (o : SummarizeOracle) (msgs : List Message) (e : Event)
    (h : e ∈ (applySummarization o msgs).events) : ∃ ms, e = Event.messagesUpdate ms := by
  unfold applySummarization at h
  split at h
  · simp at h
  · split at h
    · simp at h
    · split at h
      · simp at h
      · simp at h; exact ⟨_, h⟩
      · simp at h; exact ⟨_, h⟩

theorem mem_summarizeStep_events (cfg : SessionConfig) (o : SummarizeOracle)
    (msgs : List Message) (e : Event) (h : e ∈ (summarizeStep cfg o msgs).events) :
    ∃ ms, e = Event.messagesUpdate ms := by
  unfold summarizeStep at h
  split at h
  · simp at h
  · split at h
    · exact mem_applySummarization_events _ _ _ h
    · simp at h

theorem mem_idleStep_events (idleTurns : Nat) (st : SessionState) (e : Event)
    (h : e ∈ (idleStep idleTurns st).events) : ∃ ms, e = Event.messagesUpdate ms := by
  unfold idleStep at h
  split at h
  · split at h
    · simp at h; exact ⟨_, h⟩
    · simp at h
  · simp at h

/-- The shape every event fired inside one turn can take. -/
def TurnEventShape (cfg : SessionConfig) (st : SessionState) (e : Event) : Prop :=
  e = Event.turnStart (st.turnCount + 1)
  ∨ e = Event.backendInvoke st.messages (mergeToolsList cfg.tools)
  ∨ (∃ t tn, e = Event.assistantMessage t tn)
  ∨ (∃ nm tn, e = Event.toolCall nm tn)
  ∨ (∃ ph tn, e = Event.errorEv ph tn)
  ∨ (∃ nm i tn, e = Event.toolResult nm i tn)
  ∨ (∃ rsn tn, e = Event.suspendEv rsn tn)
  ∨ (∃ ms, e = Event.messagesUpdate ms)

theorem shape_turnStart (cfg : SessionConfig) (st : SessionState) :
    TurnEventShape cfg st (Event.turnStart (st.turnCount + 1)) := Or.inl rfl

theorem shape_invoke (cfg : SessionConfig) (st : SessionState) :
    TurnEventShape cfg st (Event.backendInvoke st.messages (mergeToolsList cfg.tools)) :=
  Or.inr (Or.inl rfl)

theorem shape_assistant (cfg : SessionConfig) (st : SessionState) (t : String) (tn : Nat) :
    TurnEventShape cfg st (Event.assistantMessage t tn) :=
  Or.inr (Or.inr (Or.inl ⟨t, tn, rfl⟩))

theorem shape_toolCall (cfg : SessionConfig) (st : SessionState) (nm : String) (tn : Nat) :
    TurnEventShape cfg st (Event.toolCall nm tn) :=
  Or.inr (Or.inr (Or.inr (Or.inl ⟨nm, tn, rfl⟩)))

theorem shape_errorEv (cfg : SessionConfig) (st : SessionState) (ph : Phase) (tn : Nat) :
    TurnEventShape cfg st (Event.errorEv ph tn) :=
  Or.inr (Or.inr (Or.inr (Or.inr (Or.inl ⟨ph, tn, rfl⟩))))

theorem shape_toolResult (cfg : SessionConfig) (st : SessionState) (nm : String) (i tn : Nat) :
    TurnEventShape cfg st (Event.toolResult nm i tn) :=
  Or.inr (Or.inr (Or.inr (Or.inr (Or.inr (Or.inl ⟨nm, i, tn, rfl⟩)))))

theorem shape_suspendEv (cfg : SessionConfig) (st : SessionState) (rsn : String) (tn : Nat) :
    TurnEventShape cfg st (Event.suspendEv rsn tn) :=
  Or.inr (Or.inr (Or.inr (Or.inr (Or.inr (Or.inr (Or.inl ⟨rsn, tn, rfl⟩))))))

theorem shape_messagesUpdate (cfg : SessionConfig) (st : SessionState) (ms : List Message) :
    TurnEventShape cfg st (Event.messagesUpdate ms) :=
  Or.inr (Or.inr (Or.inr (Or.inr (Or.inr (Or.inr (Or.inr ⟨ms, rfl⟩))))))

/-- Master shape lemma for the events of one turn. -/
theorem mem_runTurn_events (cfg : SessionConfig) (o : TurnOutcome) (st : SessionState) (e : Event)
    (h : e ∈ (runTurn cfg o st).events) : TurnEventShape cfg st e := by
  cases o with
  | fault f =>
    simp only [runTurn, List.mem_cons, List.not_mem_nil, or_false] at h
    rw [h]; exact shape_turnStart cfg st
  | backendError msg =>
    simp only [runTurn, List.mem_cons, List.not_mem_nil, or_false] at h
    rcases h with rfl | rfl | rfl | rfl
    · exact shape_turnStart cfg st
    · exact shape_invoke cfg st
    · exact shape_errorEv cfg st _ _
    · exact shape_messagesUpdate cfg st _
  | success r =>
    simp only [runTurn] at h
    split at h
    · simp only [List.append_assoc, List.mem_append, List.mem_cons, List.not_mem_nil,
        or_false] at h
      rcases h with (rfl | rfl) | hText | rfl | hSu
      · exact shape_turnStart cfg st
      · exact shape_invoke cfg st
      · rw [mem_applyText_events _ _ _ _ hText]; exact shape_assistant cfg st _ _
      · exact shape_messagesUpdate cfg st _
      · rcases mem_summarizeStep_events _ _ _ _ hSu with ⟨ms, rfl⟩
        exact shape_messagesUpdate cfg st _
    · rcases hterm : (processToolResults (st.turnCount + 1) 0 r.toolResults).terminal with
        _ | s
      all_goals rw [hterm] at h
      case none =>
        simp only [List.append_assoc, List.mem_append, List.mem_cons, List.not_mem_nil,
          or_false] at h
        rcases h with (rfl | rfl) | hText | hCall | hPr | rfl | hSu
        · exact shape_turnStart cfg st
        · exact shape_invoke cfg st
        · rw [mem_applyText_events _ _ _ _ hText]; exact shape_assistant cfg st _ _
        · rcases mem_toolCallEvents _ _ _ hCall with ⟨nm, rfl⟩ | rfl
          · exact shape_toolCall cfg st _ _
          · exact shape_errorEv cfg st _ _
        · rcases mem_processToolResults_events _ _ _ _ hPr with ⟨nm, i, rfl⟩ | ⟨rsn, rfl⟩
          · exact shape_toolResult cfg st _ _ _
          · exact shape_suspendEv cfg st _ _
        · exact shape_messagesUpdate cfg st _
        · rcases mem_summarizeStep_events _ _ _ _ hSu with ⟨ms, rfl⟩
          exact shape_messagesUpdate cfg st _
      case some =>
        cases s with
        | continueSig =>
          simp only [List.append_assoc, List.mem_append, List.mem_cons, List.not_mem_nil,
            or_false] at h
          rcases h with (rfl | rfl) | hText | hCall | hPr | rfl | hSu
          · exact shape_turnStart cfg st
          · exact shape_invoke cfg st
          · rw [mem_applyText_events _ _ _ _ hText]; exact shape_assistant cfg st _ _
          · rcases mem_toolCallEvents _ _ _ hCall with ⟨nm, rfl⟩ | rfl
            · exact shape_toolCall cfg st _ _
            · exact shape_errorEv cfg st _ _
          · rcases mem_processToolResults_events _ _ _ _ hPr with ⟨nm, i, rfl⟩ | ⟨rsn, rfl⟩
            · exact shape_toolResult cfg st _ _ _
            · exact shape_suspendEv cfg st _ _
          · exact shape_messagesUpdate cfg st _
          · rcases mem_summarizeStep_events _ _ _ _ hSu with ⟨ms, rfl⟩
            exact shape_messagesUpdate cfg st _
        | completed s d =>
          simp only [List.append_assoc, List.mem_append, List.mem_cons, List.not_mem_nil,
            or_false] at h
          rcases h with (rfl | rfl) | hText | hCall | hPr
          · exact shape_turnStart cfg st
          · exact shape_invoke cfg st
          · rw [mem_applyText_events _ _ _ _ hText]; exact shape_assistant cfg st _ _
          · rcases mem_toolCallEvents _ _ _ hCall with ⟨nm, rfl⟩ | rfl
            · exact shape_toolCall cfg st _ _
            · exact shape_errorEv cfg st _ _
          · rcases mem_processToolResults_events _ _ _ _ hPr with ⟨nm, i, rfl⟩ | ⟨rsn, rfl⟩
            · exact shape_toolResult cfg st _ _ _
            · exact shape_suspendEv cfg st _ _
        | suspendedSig rsn dt =>
          simp only [List.append_assoc, List.mem_append, List.mem_cons, List.not_mem_nil,
            or_false] at h
          rcases h with (rfl | rfl) | hText | hCall | hPr
          · exact shape_turnStart cfg st
          · exact shape_invoke cfg st
          · rw [mem_applyText_events _ _ _ _ hText]; exact shape_assistant cfg st _ _
          · rcases mem_toolCallEvents _ _ _ hCall with ⟨nm, rfl⟩ | rfl
            · exact shape_toolCall cfg st _ _
            · exact shape_errorEv cfg st _ _
          · rcases mem_processToolResults_events _ _ _ _ hPr with ⟨nm, i, rfl⟩ | ⟨rsn2, rfl⟩
            · exact shape_toolResult cfg st _ _ _
            · exact shape_suspendEv cfg st _ _

end AgenticLoop

namespace AgenticLoop

theorem TurnEventShape.not_complete (cfg : SessionConfig) (st : SessionState) (e : Event)
    (h : TurnEventShape cfg st e) : isCompleteEv e = false := by
  rcases h with rfl | rfl | ⟨t, tn, rfl⟩ | ⟨nm, tn, rfl⟩ | ⟨ph, tn, rfl⟩ | ⟨nm, i, tn, rfl⟩
    | ⟨rsn, tn, rfl⟩ | ⟨ms, rfl⟩ <;> rfl

theorem runTurn_filter_complete (cfg : SessionConfig) (o : TurnOutcome) (st : SessionState) :
    (runTurn cfg o st).events.filter isCompleteEv = [] := by
  rw [List.filter_eq_nil_iff]
  intro e he
  simp [TurnEventShape.not_complete cfg st e (mem_runTurn_events cfg o st e he)]

theorem idleStep_filter_complete (idleTurns : Nat) (st : SessionState) :
    (idleStep idleTurns st).events.filter isCompleteEv = [] := by
  rw [List.filter_eq_nil_iff]
  intro e he
  rcases mem_idleStep_events _ _ _ he with ⟨ms, rfl⟩
  simp [isCompleteEv]

theorem runLoop_filter_complete (cfg : SessionConfig) (script : Nat → TurnOutcome) (maxT : Nat)
    (fuel idleTurns : Nat) (st : SessionState) :
    (runLoop cfg script maxT fuel idleTurns st).events.filter isCompleteEv = [] := by
  induction fuel generalizing idleTurns st with
  | zero => rfl
  | succ n ih =>
    simp only [runLoop]
    split
    · split
      · simp [List.filter_append, idleStep_filter_complete, runTurn_filter_complete]
      · simp [List.filter_append, idleStep_filter_complete, runTurn_filter_complete, ih]
    · rfl

/-- C3: the completion callback fires exactly once, with the settled
completion reason and turn total, as the final event before the promise
resolves; an uncaught fault in the loop body is attached to the resolved
result with the reason forced to error, and never re-thrown (the runner
always returns a result). -/
theorem C3_complete_exactly_once (cfg : SessionConfig) (script : Nat → TurnOutcome) :
    (∃ front,
      (runSession cfg script).2
          = front ++ [Event.completeEv (runSession cfg script).1.completionReason
                        (runSession cfg script).1.totalTurns]
      ∧ front.filter isCompleteEv = [])
    ∧ (runSession cfg script).1.error = (sessionLoopOutput cfg script).fault
    ∧ ((runSession cfg script).1.error = none
       ∨ (runSession cfg script).1.completionReason = CompletionReason.error) := by
  have hfc := runLoop_filter_complete cfg script (maxTurnsEff cfg) (maxTurnsEff cfg + 1) 0
    (initialState cfg)
  unfold runSession
  rcases hf : (sessionLoopOutput cfg script).fault with _ | f
  · simp only [hf]
    refine ⟨⟨Event.messagesUpdate (initialState cfg).messages ::
        (sessionLoopOutput cfg script).events, ?_, ?_⟩, ?_, ?_⟩
    · simp
    · simp only [List.filter]
      rw [show isCompleteEv (Event.messagesUpdate (initialState cfg).messages) = false from rfl]
      unfold sessionLoopOutput
      exact hfc
    · trivial
    · exact Or.inl trivial
  · simp only [hf]
    refine ⟨⟨Event.messagesUpdate (initialState cfg).messages ::
        ((sessionLoopOutput cfg script).events
          ++ [Event.errorEv Phase.llm (sessionLoopOutput cfg script).state.turnCount]), ?_, ?_⟩,
        ?_, ?_⟩
    · simp
    · simp only [List.filter_cons, List.filter_append]
      rw [show isCompleteEv (Event.messagesUpdate (initialState cfg).messages) = false from rfl]
      unfold sessionLoopOutput
      simp [hfc, isCompleteEv]
    · trivial
    · exact Or.inr trivial

end AgenticLoop

namespace AgenticLoop

/-- C1 counterexample: a session resumed from 102 saved messages with the
default max turns (50) settles with totalTurns 51, exceeding the
configured bound, because the turn counter is seeded with
floor(102 / 2) = 51 before any turn runs. -/
theorem C1_totalTurns_counterexample :
    ¬ ((runSession cfgLongResume scriptAllErr).1.totalTurns ≤ maxTurnsEff cfgLongResume) := by
  decide

/-- C1 (amended): for every configuration and backend script, the settled
totalTurns is at most the maximum of the configured max turns and the
seeded turn counter floor(resumed-history-length / 2) — in particular at
most the configured max turns whenever the seed does not already exceed
it, e.g. for every fresh session — and the completion reason is one of
the four enum values. -/
theorem C1_totalTurns_bound (cfg : SessionConfig) (script : Nat → TurnOutcome) :
    (runSession cfg script).1.totalTurns
        ≤ max (maxTurnsEff cfg) ((effInitialMessages cfg).length / 2)
    ∧ ((runSession cfg script).1.completionReason = CompletionReason.task_complete
       ∨ (runSession cfg script).1.completionReason = CompletionReason.max_turns
       ∨ (runSession cfg script).1.completionReason = CompletionReason.error
       ∨ (runSession cfg script).1.completionReason = CompletionReason.suspended) := by
  constructor
  · have hloop := runLoop_turnCount_le cfg script (maxTurnsEff cfg) (maxTurnsEff cfg + 1) 0
      (initialState cfg)
    rw [initialState_turnCount] at hloop
    unfold runSession sessionLoopOutput
    rcases hf : (runLoop cfg script (maxTurnsEff cfg) (maxTurnsEff cfg + 1) 0
      (initialState cfg)).fault with _ | f
    · simp only [hf, finalizeState_turnCount]
      exact hloop
    · simp only [hf]
      exact hloop
  · cases hr : (runSession cfg script).1.completionReason <;> simp

end AgenticLoop

namespace AgenticLoop

theorem summFails_applySummarization (o : SummarizeOracle) (msgs : List Message)
    (h : summFails o = true) : applySummarization o msgs = { messages := msgs, events := [] } := by
  rcases o with ⟨bh, sc, ah⟩
  cases bh <;> cases sc <;> cases ah <;>
    simp_all [summFails, hookFails, callFails, applySummarization]

theorem summFails_summarizeStep (cfg : SessionConfig) (o : SummarizeOracle)
    (msgs : List Message) (h : summFails o = true) :
    summarizeStep cfg o msgs = { messages := msgs, events := [] } := by
  unfold summarizeStep
  rcases effTokenLimit cfg with _ | l
  · rfl
  · simp only []
    split
    · exact summFails_applySummarization o msgs h
    · rfl

theorem applyText_completionReason (r : GenResult) (turn : Nat) (st : SessionState) :
    (applyText r turn st).1.completionReason = st.completionReason := by
  unfold applyText; split <;> rfl

theorem applyText_shouldContinue (r : GenResult) (turn : Nat) (st : SessionState) :
    (applyText r turn st).1.shouldContinue = st.shouldContinue := by
  unfold applyText; split <;> rfl

theorem runTurn_textOnly_messages (cfg : SessionConfig) (r : GenResult) (st : SessionState)
    (hcalls : r.toolCalls = []) (hsumm : summFails r.summOracle = true) :
    (runTurn cfg (TurnOutcome.success r) st).state.messages
      = st.messages ++ r.responseMessages := by
  simp only [runTurn]
  rw [if_pos hcalls]
  simp only [summFails_summarizeStep cfg r.summOracle _ hsumm, applyText_messages]

end AgenticLoop

namespace AgenticLoop

/-- C6: a summarization attempt whose before hook, backend summarization
call or after hook fails is aborted with the message history exactly as
it was before the attempt and no event fired (the failure is only
logged); at the turn level (a text-only turn, where the attempt follows
the history append), the appended history is untouched by the failed
attempt, the session state stays non-terminal, no error event fires, and
no fault is raised. -/
theorem C6_summarization_failure_absorbed (o : SummarizeOracle) (msgs : List Message)
    (cfg : SessionConfig) (st : SessionState) (r : GenResult) :
    (summFails o = true → applySummarization o msgs = { messages := msgs, events := [] })
    ∧ (summFails r.summOracle = true → r.toolCalls = [] →
        ((runTurn cfg (TurnOutcome.success r) st).state.messages
            = st.messages ++ r.responseMessages
         ∧ (runTurn cfg (TurnOutcome.success r) st).state.completionReason = st.completionReason
         ∧ (runTurn cfg (TurnOutcome.success r) st).state.shouldContinue = st.shouldContinue
         ∧ (runTurn cfg (TurnOutcome.success r) st).fault = none
         ∧ ∀ ph tn, Event.errorEv ph tn ∉ (runTurn cfg (TurnOutcome.success r) st).events)) := by
  refine ⟨summFails_applySummarization o msgs, fun hfail hcalls => ?_⟩
  refine ⟨runTurn_textOnly_messages cfg r st hcalls hfail, ?_, ?_, ?_, ?_⟩
  · simp only [runTurn]
    rw [if_pos hcalls]
    simp only [summFails_summarizeStep cfg r.summOracle _ hfail, applyText_completionReason]
  · simp only [runTurn]
    rw [if_pos hcalls]
    simp only [summFails_summarizeStep cfg r.summOracle _ hfail, applyText_shouldContinue]
  · simp only [runTurn]
    rw [if_pos hcalls]
  · intro ph tn hmem
    simp only [runTurn] at hmem
    rw [if_pos hcalls] at hmem
    simp only [summFails_summarizeStep cfg r.summOracle _ hfail] at hmem
    simp only [List.append_assoc, List.mem_append, List.mem_cons, List.not_mem_nil,
      or_false] at hmem
    rcases hmem with (h | h) | h | h
    · exact absurd h (by simp)
    · exact absurd h (by simp)
    · exact absurd (mem_applyText_events _ _ _ _ h) (by simp)
    · exact absurd h (by simp)

/-- C6 witness: a failing summarization oracle leaves a concrete history
untouched. -/
theorem C6_witness :
    summFails failingOracle = true
    ∧ applySummarization failingOracle [msgU] = { messages := [msgU], events := [] } :=
  ⟨by decide,
   (C6_summarization_failure_absorbed failingOracle [msgU] cfgFresh
      { messages := [], turnCount := 0, finalOutput := "", shouldContinue := true,
        taskResult := none, completionReason := CompletionReason.max_turns,
        suspendInfo := none } textOnlyResult).1 (by decide)⟩

end AgenticLoop

namespace AgenticLoop

/-- C5: a backend-invocation failure (or timeout) does not terminate the
session: the error callback fires with the backend-invocation (llm)
phase, a synthetic retry user message is appended, the turn contributes
no assistant message (final output unchanged, no assistant-message
event), the continuation flag and completion reason are untouched, and
the failed turn is counted; concretely, a backend that fails exactly once
and then completes the task still settles with task_complete and
totalTurns 2 counting the failed turn, with no top-level rejection. -/
theorem C5_backend_error_retry (cfg : SessionConfig) (st : SessionState) (msg : String) :
    ((runTurn cfg (TurnOutcome.backendError msg) st).state.turnCount = st.turnCount + 1
     ∧ (runTurn cfg (TurnOutcome.backendError msg) st).state.messages
         = st.messages ++ [Message.mk Role.user (retryMessageText msg)]
     ∧ (runTurn cfg (TurnOutcome.backendError msg) st).state.shouldContinue = st.shouldContinue
     ∧ (runTurn cfg (TurnOutcome.backendError msg) st).state.completionReason
         = st.completionReason
     ∧ (runTurn cfg (TurnOutcome.backendError msg) st).state.finalOutput = st.finalOutput
     ∧ Event.errorEv Phase.llm (st.turnCount + 1)
         ∈ (runTurn cfg (TurnOutcome.backendError msg) st).events
     ∧ (∀ t tn,
          Event.assistantMessage t tn ∉ (runTurn cfg (TurnOutcome.backendError msg) st).events)
     ∧ (runTurn cfg (TurnOutcome.backendError msg) st).fault = none)
    ∧ ((runSession cfgFresh scriptFailThenComplete).1.completionReason
         = CompletionReason.task_complete
       ∧ (runSession cfgFresh scriptFailThenComplete).1.totalTurns = 2
       ∧ (runSession cfgFresh scriptFailThenComplete).1.error = none) := by
  refine ⟨⟨rfl, rfl, rfl, rfl, rfl, ?_, ?_, rfl⟩, by decide, by decide, by decide⟩
  · simp [runTurn]
  · intro t tn
    simp [runTurn]

end AgenticLoop

namespace AgenticLoop

theorem find_map_override (ts : List (String × ToolSpec))
    (h : ts.any (fun p => p.1 == "task_complete") = true) :
    (ts.map (fun p =>
        if p.1 == "task_complete" then ("task_complete", taskCompleteToolSpec) else p)).find?
      (fun p => p.1 == "task_complete") = some ("task_complete", taskCompleteToolSpec) := by
  induction ts with
  | nil => simp at h
  | cons p rest ih =>
    rcases hp : (p.1 == "task_complete") with _ | _
    · simp only [List.any_cons, hp, Bool.false_or] at h
      simp only [List.map_cons, hp, Bool.false_eq_true, if_false, List.find?_cons, hp]
      exact ih h
    · simp only [List.map_cons, hp, if_true, List.find?_cons]
      rfl

theorem find_append_absent (ts : List (String × ToolSpec))
    (h : ts.any (fun p => p.1 == "task_complete") = false) :
    (ts ++ [("task_complete", taskCompleteToolSpec)]).find? (fun p => p.1 == "task_complete")
      = some ("task_complete", taskCompleteToolSpec) := by
  induction ts with
  | nil => rfl
  | cons p rest ih =>
    simp only [List.any_cons, Bool.or_eq_false_iff] at h
    simp only [List.cons_append, List.find?_cons, h.1]
    exact ih h.2

theorem lookupTool_merge (ts : List (String × ToolSpec)) :
    lookupTool (mergeToolsList ts) "task_complete" = some taskCompleteToolSpec := by
  unfold mergeToolsList lookupTool
  rcases h : ts.any (fun p => p.1 == "task_complete") with _ | _
  · simp only [Bool.false_eq_true, if_false]
    rw [find_append_absent ts h]
    rfl
  · simp only [if_true]
    rw [find_map_override ts h]
    rfl

theorem mem_runLoop_events (cfg : SessionConfig) (script : Nat → TurnOutcome) (maxT : Nat)
    (fuel idleTurns : Nat) (st : SessionState) (e : Event)
    (h : e ∈ (runLoop cfg script maxT fuel idleTurns st).events) :
    ∃ st', TurnEventShape cfg st' e := by
  induction fuel generalizing idleTurns st with
  | zero => simp [runLoop] at h
  | succ n ih =>
    simp only [runLoop] at h
    split at h
    · split at h
      · simp only [List.mem_append] at h
        rcases h with h | h
        · rcases mem_idleStep_events _ _ _ h with ⟨ms, rfl⟩
          exact ⟨st, shape_messagesUpdate cfg st ms⟩
        · exact ⟨_, mem_runTurn_events _ _ _ _ h⟩
      · simp only [List.append_assoc, List.mem_append] at h
        rcases h with h | h | h
        · rcases mem_idleStep_events _ _ _ h with ⟨ms, rfl⟩
          exact ⟨st, shape_messagesUpdate cfg st ms⟩
        · exact ⟨_, mem_runTurn_events _ _ _ _ h⟩
        · exact ih _ _ h
    · simp at h

/-- C9 counterexample: a caller registering its own tool under the
reserved name task_complete is silently overridden — the merged catalog
maps the reserved name to the built-in tool, with no conflict signalled
anywhere (the merge is total and error-free). -/
theorem C9_conflict_counterexample :
    lookupTool (mergeToolsList [("task_complete", impostorToolSpec)]) "task_complete"
        = some taskCompleteToolSpec
    ∧ impostorToolSpec ≠ taskCompleteToolSpec := by
  constructor
  · decide
  · decide

/-- C9 (amended): the reserved task-completion tool is implicitly added
to the catalog passed to the backend on every backend invocation of
every session, and its execution produces a payload the classifier maps
to a Completed signal; a caller-registered tool under the reserved name
is silently overridden by the built-in one rather than being treated as
a conflict. -/
theorem C9_taskComplete_tool (callerTools : List (String × ToolSpec)) (args : TaskCompleteArgs)
    (cfg : SessionConfig) (script : Nat → TurnOutcome) (h : List Message)
    (tl : List (String × ToolSpec)) :
    lookupTool (mergeToolsList callerTools) "task_complete" = some taskCompleteToolSpec
    ∧ classifyPayload (taskCompleteExecute args) = Signal.completed args.summary args.result
    ∧ (Event.backendInvoke h tl ∈ (runSession cfg script).2 → tl = mergeToolsList cfg.tools) := by
  refine ⟨lookupTool_merge callerTools, rfl, fun hmem => ?_⟩
  simp only [runSession] at hmem
  rcases hf : (sessionLoopOutput cfg script).fault with _ | f <;> simp only [hf] at hmem <;>
    simp only [List.mem_cons, List.mem_append, List.not_mem_nil, or_false] at hmem
  · rcases hmem with hmem | hmem | hmem
    · exact absurd hmem (by simp)
    · rcases mem_runLoop_events cfg script (maxTurnsEff cfg) (maxTurnsEff cfg + 1) 0
        (initialState cfg) _ hmem with ⟨st', hsh⟩
      rcases hsh with h1 | h1 | ⟨t, tn, h1⟩ | ⟨nm, tn, h1⟩ | ⟨ph, tn, h1⟩ | ⟨nm, i, tn, h1⟩
        | ⟨rsn, tn, h1⟩ | ⟨ms, h1⟩ <;> first
        | (injection h1 with h2 h3; try exact h3)
        | exact absurd h1 (by simp)
    · exact absurd hmem (by simp)
  · rcases hmem with hmem | hmem | hmem | hmem
    · exact absurd hmem (by simp)
    · rcases mem_runLoop_events cfg script (maxTurnsEff cfg) (maxTurnsEff cfg + 1) 0
        (initialState cfg) _ hmem with ⟨st', hsh⟩
      rcases hsh with h1 | h1 | ⟨t, tn, h1⟩ | ⟨nm, tn, h1⟩ | ⟨ph, tn, h1⟩ | ⟨nm, i, tn, h1⟩
        | ⟨rsn, tn, h1⟩ | ⟨ms, h1⟩ <;> first
        | (injection h1 with h2 h3; try exact h3)
        | exact absurd h1 (by simp)
    · exact absurd hmem (by simp)
    · exact absurd hmem (by simp)

end AgenticLoop

namespace AgenticLoop

theorem summarizeStep_congr (cfg cfg' : SessionConfig)
    (hl : effTokenLimit cfg = effTokenLimit cfg') (o : SummarizeOracle) (msgs : List Message) :
    summarizeStep cfg o msgs = summarizeStep cfg' o msgs := by
  unfold summarizeStep
  rw [hl]

theorem runTurn_congr (cfg cfg' : SessionConfig) (ht : cfg.tools = cfg'.tools)
    (hl : effTokenLimit cfg = effTokenLimit cfg') (o : TurnOutcome) (st : SessionState) :
    runTurn cfg o st = runTurn cfg' o st := by
  cases o with
  | fault f => rfl
  | backendError msg => simp only [runTurn, ht]
  | success r => simp only [runTurn, ht, summarizeStep_congr cfg cfg' hl]

theorem runLoop_congr (cfg cfg' : SessionConfig) (ht : cfg.tools = cfg'.tools)
    (hl : effTokenLimit cfg = effTokenLimit cfg') (script : Nat → TurnOutcome) (maxT : Nat)
    (fuel idleTurns : Nat) (st : SessionState) :
    runLoop cfg script maxT fuel idleTurns st = runLoop cfg' script maxT fuel idleTurns st := by
  induction fuel generalizing idleTurns st with
  | zero => rfl
  | succ n ih =>
    simp only [runLoop, runTurn_congr cfg cfg' ht hl, ih]

/-- C10: supplying an empty resumed-history array is treated exactly as
supplying none: the whole session run is identical, the session starts
fresh with the single user message carrying the derived initial message,
and that derived message is the configured starting message when one is
given (non-empty), or the default text otherwise — and it is the same
text reported on the session handle. -/
theorem C10_empty_initialMessages (cfg : SessionConfig) (script : Nat → TurnOutcome) :
    runSession { cfg with initialMessages := some [] } script
        = runSession { cfg with initialMessages := none } script
    ∧ derivedInitialMessage { cfg with initialMessages := some [] }
        = derivedInitialMessage { cfg with initialMessages := none }
    ∧ (initialState { cfg with initialMessages := some [] }).messages
        = [Message.mk Role.user (derivedInitialMessage { cfg with initialMessages := some [] })]
    ∧ (cfg.initialMessage = none →
        derivedInitialMessage { cfg with initialMessages := some [] } = defaultInitialMessage)
    ∧ (∀ m, cfg.initialMessage = some m → m ≠ "" →
        derivedInitialMessage { cfg with initialMessages := some [] } = m) := by
  refine ⟨?_, rfl, rfl, ?_, ?_⟩
  · unfold runSession sessionLoopOutput
    rw [runLoop_congr { cfg with initialMessages := some [] }
      { cfg with initialMessages := none } rfl rfl]
    rfl
  · intro hm
    simp [derivedInitialMessage, effInitialMessages, hm]
  · intro m hm hne
    simp [derivedInitialMessage, effInitialMessages, hm, hne]

end AgenticLoop

namespace AgenticLoop

theorem processToolResults_terminal (turn : Nat) (pre : List ToolResultEntry)
    (term : ToolResultEntry) (post : List ToolResultEntry)
    (hpre : ∀ x ∈ pre, classifyPayload x.output = Signal.continueSig)
    (hterm : isTerminal (classifyPayload term.output) = true) :
    ∀ idx, (processToolResults turn idx (pre ++ term :: post)).terminal
        = some (classifyPayload term.output)
    ∧ (∀ nm i tn, Event.toolResult nm i tn
        ∈ (processToolResults turn idx (pre ++ term :: post)).events → i < idx + pre.length) := by
  induction pre with
  | nil =>
    intro idx
    simp only [List.nil_append]
    rcases hc : classifyPayload term.output with _ | ⟨s, d⟩ | ⟨rsn, dt⟩
    · rw [hc] at hterm
      simp [isTerminal] at hterm
    · refine ⟨by simp [processToolResults, hc], fun nm i tn hmem => ?_⟩
      simp [processToolResults, hc] at hmem
    · refine ⟨by simp [processToolResults, hc], fun nm i tn hmem => ?_⟩
      simp [processToolResults, hc] at hmem
  | cons p rest ih =>
    intro idx
    have hp := hpre p (by simp)
    have hrest : ∀ x ∈ rest, classifyPayload x.output = Signal.continueSig :=
      fun x hx => hpre x (by simp [hx])
    have ihx := ih hrest (idx + 1)
    simp only [List.cons_append, processToolResults, hp]
    refine ⟨ihx.1, fun nm i tn hmem => ?_⟩
    simp only [List.mem_cons] at hmem
    rcases hmem with heq | hmem
    · injection heq with h1 h2 h3
      subst h2
      simp
    · have := ihx.2 nm i tn hmem
      simp only [List.length_cons]
      omega

theorem processToolResults_suspend_mem (turn : Nat) (pre : List ToolResultEntry)
    (term : ToolResultEntry) (post : List ToolResultEntry) (rsn : String) (dt : Option String)
    (hpre : ∀ x ∈ pre, classifyPayload x.output = Signal.continueSig)
    (hc : classifyPayload term.output = Signal.suspendedSig rsn dt) :
    ∀ idx, Event.suspendEv rsn turn ∈ (processToolResults turn idx (pre ++ term :: post)).events := by
  induction pre with
  | nil =>
    intro idx
    simp [processToolResults, hc]
  | cons p rest ih =>
    intro idx
    have hp := hpre p (by simp)
    have hrest : ∀ x ∈ rest, classifyPayload x.output = Signal.continueSig :=
      fun x hx => hpre x (by simp [hx])
    simp only [List.cons_append, processToolResults, hp]
    simp only [List.mem_cons]
    exact Or.inr (ih hrest (idx + 1))

end AgenticLoop

namespace AgenticLoop

/-- C4: when some tool result of a turn carries a terminal (completion or
suspension) signal — the first such in the list — the Turn Executor stops
processing the remaining results: the state after the turn is the prior
history plus the backend's response messages plus one synthetic closing
user message, the terminal fields are set according to the signal kind,
the continuation flag is cleared, the turn returns immediately (no
messages-update callback, no summarization), no fault escapes, and no
tool-result callback fires for the terminal result or any result after it
(every reported index is below the terminal's position). -/
theorem C4_terminal_stops_processing (cfg : SessionConfig) (st : SessionState) (r : GenResult)
    (pre : List ToolResultEntry) (term : ToolResultEntry) (post : List ToolResultEntry)
    (hcalls : r.toolCalls ≠ []) (hsplit : r.toolResults = pre ++ term :: post)
    (hpre : ∀ x ∈ pre, classifyPayload x.output = Signal.continueSig)
    (hterm : isTerminal (classifyPayload term.output) = true) :
    (runTurn cfg (TurnOutcome.success r) st).state.shouldContinue = false
    ∧ (∃ closing, closing.role = Role.user
        ∧ (runTurn cfg (TurnOutcome.success r) st).state.messages
            = st.messages ++ r.responseMessages ++ [closing])
    ∧ (∀ s d, classifyPayload term.output = Signal.completed s d →
        (runTurn cfg (TurnOutcome.success r) st).state.completionReason
            = CompletionReason.task_complete
        ∧ (runTurn cfg (TurnOutcome.success r) st).state.taskResult = d)
    ∧ (∀ rsn dt, classifyPayload term.output = Signal.suspendedSig rsn dt →
        (runTurn cfg (TurnOutcome.success r) st).state.completionReason
            = CompletionReason.suspended
        ∧ (runTurn cfg (TurnOutcome.success r) st).state.suspendInfo
            = some (SuspendInfo.mk rsn dt (st.turnCount + 1)))
    ∧ (∀ ms, Event.messagesUpdate ms ∉ (runTurn cfg (TurnOutcome.success r) st).events)
    ∧ (∀ nm i tn, Event.toolResult nm i tn ∈ (runTurn cfg (TurnOutcome.success r) st).events →
        i < pre.length)
    ∧ (runTurn cfg (TurnOutcome.success r) st).fault = none := by
  have hP := processToolResults_terminal (st.turnCount + 1) pre term post hpre hterm 0
  have hterm_eq : (processToolResults (st.turnCount + 1) 0 r.toolResults).terminal
      = some (classifyPayload term.output) := by
    rw [hsplit]; exact hP.1
  have hbound : ∀ nm i tn, Event.toolResult nm i tn
      ∈ (processToolResults (st.turnCount + 1) 0 r.toolResults).events → i < pre.length := by
    intro nm i tn hmem
    rw [hsplit] at hmem
    have := hP.2 nm i tn hmem
    omega
  rcases hc : classifyPayload term.output with _ | ⟨s, d⟩ | ⟨rsn, dt⟩
  · rw [hc] at hterm
    simp [isTerminal] at hterm
  · rw [hc] at hterm_eq
    refine ⟨?_, ⟨taskCompleteClosingMessage, rfl, ?_⟩, ?_, ?_, ?_, ?_, ?_⟩
    · simp only [runTurn]
      rw [if_neg hcalls, hterm_eq]
    · simp only [runTurn]
      rw [if_neg hcalls, hterm_eq]
      simp [applyText_messages]
    · intro s' d' hc'
      injection hc' with h1 h2
      subst h1; subst h2
      constructor
      · simp only [runTurn]
        rw [if_neg hcalls, hterm_eq]
      · simp only [runTurn]
        rw [if_neg hcalls, hterm_eq]
    · intro rsn' dt' hc'
      exact absurd hc' (by simp)
    · intro ms hmem
      simp only [runTurn] at hmem
      rw [if_neg hcalls, hterm_eq] at hmem
      simp only [List.append_assoc, List.mem_append, List.mem_cons, List.not_mem_nil,
        or_false] at hmem
      rcases hmem with (h | h) | h | h | h
      · exact absurd h (by simp)
      · exact absurd h (by simp)
      · exact absurd (mem_applyText_events _ _ _ _ h) (by simp)
      · rcases mem_toolCallEvents _ _ _ h with ⟨nm, h1⟩ | h1 <;> simp at h1
      · rcases mem_processToolResults_events _ _ _ _ h with ⟨nm, i, h1⟩ | ⟨rsn2, h1⟩ <;>
          simp at h1
    · intro nm i tn hmem
      simp only [runTurn] at hmem
      rw [if_neg hcalls, hterm_eq] at hmem
      simp only [List.append_assoc, List.mem_append, List.mem_cons, List.not_mem_nil,
        or_false] at hmem
      rcases hmem with (h | h) | h | h | h
      · exact absurd h (by simp)
      · exact absurd h (by simp)
      · exact absurd (mem_applyText_events _ _ _ _ h) (by simp)
      · rcases mem_toolCallEvents _ _ _ h with ⟨nm2, h1⟩ | h1 <;> simp at h1
      · exact hbound nm i tn h
    · simp only [runTurn]
      rw [if_neg hcalls, hterm_eq]
  · rw [hc] at hterm_eq
    refine ⟨?_, ⟨suspendClosingMessage, rfl, ?_⟩, ?_, ?_, ?_, ?_, ?_⟩
    · simp only [runTurn]
      rw [if_neg hcalls, hterm_eq]
    · simp only [runTurn]
      rw [if_neg hcalls, hterm_eq]
      simp [applyText_messages]
    · intro s' d' hc'
      exact absurd hc' (by simp)
    · intro rsn' dt' hc'
      injection hc' with h1 h2
      subst h1; subst h2
      constructor
      · simp only [runTurn]
        rw [if_neg hcalls, hterm_eq]
      · simp only [runTurn]
        rw [if_neg hcalls, hterm_eq]
    · intro ms hmem
      simp only [runTurn] at hmem
      rw [if_neg hcalls, hterm_eq] at hmem
      simp only [List.append_assoc, List.mem_append, List.mem_cons, List.not_mem_nil,
        or_false] at hmem
      rcases hmem with (h | h) | h | h | h
      · exact absurd h (by simp)
      · exact absurd h (by simp)
      · exact absurd (mem_applyText_events _ _ _ _ h) (by simp)
      · rcases mem_toolCallEvents _ _ _ h with ⟨nm, h1⟩ | h1 <;> simp at h1
      · rcases mem_processToolResults_events _ _ _ _ h with ⟨nm, i, h1⟩ | ⟨rsn2, h1⟩ <;>
          simp at h1
    · intro nm i tn hmem
      simp only [runTurn] at hmem
      rw [if_neg hcalls, hterm_eq] at hmem
      simp only [List.append_assoc, List.mem_append, List.mem_cons, List.not_mem_nil,
        or_false] at hmem
      rcases hmem with (h | h) | h | h | h
      · exact absurd h (by simp)
      · exact absurd h (by simp)
      · exact absurd (mem_applyText_events _ _ _ _ h) (by simp)
      · rcases mem_toolCallEvents _ _ _ h with ⟨nm2, h1⟩ | h1 <;> simp at h1
      · exact hbound nm i tn h
    · simp only [runTurn]
      rw [if_neg hcalls, hterm_eq]

end AgenticLoop

namespace AgenticLoop

theorem initialState_shouldContinue (cfg : SessionConfig) :
    (initialState cfg).shouldContinue = true := by
  unfold initialState
  dsimp only
  split
  · rfl
  · split
    · split <;> rfl
    · rfl

theorem maxTurnsEff_pos (cfg : SessionConfig) : 0 < maxTurnsEff cfg := by
  unfold maxTurnsEff
  rcases h : cfg.maxTurns with _ | n
  · decide
  · dsimp only
    split
    · decide
    · omega

theorem idleStep_zeroTurn (idleTurns : Nat) (st : SessionState) (h : st.turnCount = 0) :
    idleStep idleTurns st = { events := [], counter := 0, state := st } := by
  unfold idleStep
  rw [h]
  simp

theorem finalizeState_stopped (maxT : Nat) (st : SessionState) (h : st.shouldContinue = false) :
    finalizeState maxT st = st := by
  unfold finalizeState
  rw [h]
  simp

theorem initialState_fresh_turnCount (cfg : SessionConfig)
    (hfresh : cfg.initialMessages = none) : (initialState cfg).turnCount = 0 := by
  rw [initialState_turnCount]
  simp [effInitialMessages, hfresh]

/-- If the first turn of a fresh session clears the continuation flag
without a fault, the loop stops right after it. -/
theorem sessionLoop_first_turn_stops (cfg : SessionConfig) (script : Nat → TurnOutcome)
    (hfresh : cfg.initialMessages = none)
    (hstop : (runTurn cfg (script 0) (initialState cfg)).state.shouldContinue = false)
    (hfault : (runTurn cfg (script 0) (initialState cfg)).fault = none) :
    sessionLoopOutput cfg script =
      { events := (runTurn cfg (script 0) (initialState cfg)).events,
        state := (runTurn cfg (script 0) (initialState cfg)).state,
        fault := none } := by
  have h0 : (initialState cfg).turnCount = 0 := initialState_fresh_turnCount cfg hfresh
  unfold sessionLoopOutput
  simp only [runLoop]
  rw [initialState_shouldContinue, h0]
  simp only [Bool.true_and, decide_eq_true_eq]
  rw [if_pos (maxTurnsEff_pos cfg)]
  rw [idleStep_zeroTurn 0 (initialState cfg) h0]
  simp only []
  rw [h0]
  rcases hf : (runTurn cfg (script 0) (initialState cfg)).fault with _ | f
  · simp only []
    rw [runLoop_not_continue cfg script (maxTurnsEff cfg) (maxTurnsEff cfg) 0
      (runTurn cfg (script 0) (initialState cfg)).state hstop]
    simp
  · rw [hf] at hfault
    exact absurd hfault (by simp)

end AgenticLoop

namespace AgenticLoop

/-- Behaviour of one turn whose first terminal tool result is a
suspension signal (suspension handling modelled from the spec). -/
theorem runTurn_suspends (cfg : SessionConfig) (st : SessionState) (r : GenResult)
    (pre : List ToolResultEntry) (sus : ToolResultEntry) (post : List ToolResultEntry)
    (rsn : String) (dt : Option String)
    (hcalls : r.toolCalls ≠ []) (hsplit : r.toolResults = pre ++ sus :: post)
    (hpre : ∀ x ∈ pre, classifyPayload x.output = Signal.continueSig)
    (hc : classifyPayload sus.output = Signal.suspendedSig rsn dt) :
    (runTurn cfg (TurnOutcome.success r) st).state.shouldContinue = false
    ∧ (runTurn cfg (TurnOutcome.success r) st).state.completionReason
        = CompletionReason.suspended
    ∧ (runTurn cfg (TurnOutcome.success r) st).state.suspendInfo
        = some (SuspendInfo.mk rsn dt (st.turnCount + 1))
    ∧ (runTurn cfg (TurnOutcome.success r) st).fault = none
    ∧ Event.suspendEv rsn (st.turnCount + 1) ∈ (runTurn cfg (TurnOutcome.success r) st).events
    ∧ (∀ nm i tn, Event.toolResult nm i tn ∈ (runTurn cfg (TurnOutcome.success r) st).events →
        i < pre.length) := by
  have hterm : isTerminal (classifyPayload sus.output) = true := by rw [hc]; rfl
  have hP := processToolResults_terminal (st.turnCount + 1) pre sus post hpre hterm 0
  have hterm_eq : (processToolResults (st.turnCount + 1) 0 r.toolResults).terminal
      = some (Signal.suspendedSig rsn dt) := by
    rw [hsplit, hP.1, hc]
  have hbound : ∀ nm i tn, Event.toolResult nm i tn
      ∈ (processToolResults (st.turnCount + 1) 0 r.toolResults).events → i < pre.length := by
    intro nm i tn hmem
    rw [hsplit] at hmem
    have := hP.2 nm i tn hmem
    omega
  have hsus : Event.suspendEv rsn (st.turnCount + 1)
      ∈ (processToolResults (st.turnCount + 1) 0 r.toolResults).events := by
    rw [hsplit]
    exact processToolResults_suspend_mem (st.turnCount + 1) pre sus post rsn dt hpre hc 0
  refine ⟨?_, ?_, ?_, ?_, ?_, ?_⟩
  · simp only [runTurn]
    rw [if_neg hcalls, hterm_eq]
  · simp only [runTurn]
    rw [if_neg hcalls, hterm_eq]
  · simp only [runTurn]
    rw [if_neg hcalls, hterm_eq]
  · simp only [runTurn]
    rw [if_neg hcalls, hterm_eq]
  · simp only [runTurn]
    rw [if_neg hcalls, hterm_eq]
    simp only [List.append_assoc, List.mem_append]
    exact Or.inr (Or.inr (Or.inr hsus))
  · intro nm i tn hmem
    simp only [runTurn] at hmem
    rw [if_neg hcalls, hterm_eq] at hmem
    simp only [List.append_assoc, List.mem_append, List.mem_cons, List.not_mem_nil,
      or_false] at hmem
    rcases hmem with (h | h) | h | h | h
    · exact absurd h (by simp)
    · exact absurd h (by simp)
    · exact absurd (mem_applyText_events _ _ _ _ h) (by simp)
    · rcases mem_toolCallEvents _ _ _ h with ⟨nm2, h1⟩ | h1 <;> simp at h1
    · exact hbound nm i tn h

/-- C2 (suspension modelled from the spec): when the first terminal tool
result of the opening turn of a fresh session carries the reserved
suspension marker, the session terminates with completionReason
suspended, a non-empty suspendInfo carrying the signal's reason, data and
turn, the suspend callback fires, and no tool-result callback fires for
the suspending tool result (or any later one): every reported tool-result
index is below the suspending result's position. -/
theorem C2_suspension_roundtrip (cfg : SessionConfig) (script : Nat → TurnOutcome)
    (r : GenResult) (pre : List ToolResultEntry) (sus : ToolResultEntry)
    (post : List ToolResultEntry) (rsn : String) (dt : Option String)
    (hfresh : cfg.initialMessages = none)
    (hs0 : script 0 = TurnOutcome.success r)
    (hcalls : r.toolCalls ≠ [])
    (hsplit : r.toolResults = pre ++ sus :: post)
    (hpre : ∀ x ∈ pre, classifyPayload x.output = Signal.continueSig)
    (hc : classifyPayload sus.output = Signal.suspendedSig rsn dt) :
    (runSession cfg script).1.completionReason = CompletionReason.suspended
    ∧ (runSession cfg script).1.suspendInfo = some (SuspendInfo.mk rsn dt 1)
    ∧ Event.suspendEv rsn 1 ∈ (runSession cfg script).2
    ∧ (∀ nm i tn, Event.toolResult nm i tn ∈ (runSession cfg script).2 → i < pre.length) := by
  have h0 : (initialState cfg).turnCount = 0 := initialState_fresh_turnCount cfg hfresh
  have hT := runTurn_suspends cfg (initialState cfg) r pre sus post rsn dt hcalls hsplit hpre hc
  rw [h0] at hT
  have hT0 : runTurn cfg (script 0) (initialState cfg)
      = runTurn cfg (TurnOutcome.success r) (initialState cfg) := by rw [hs0]
  have hloop := sessionLoop_first_turn_stops cfg script hfresh
    (by rw [hT0]; exact hT.1) (by rw [hT0]; exact hT.2.2.2.1)
  rw [hT0] at hloop
  have hfin : finalizeState (maxTurnsEff cfg)
      (runTurn cfg (TurnOutcome.success r) (initialState cfg)).state
      = (runTurn cfg (TurnOutcome.success r) (initialState cfg)).state :=
    finalizeState_stopped _ _ hT.1
  refine ⟨?_, ?_, ?_, ?_⟩
  · simp only [runSession, hloop]
    rw [hfin]
    exact hT.2.1
  · simp only [runSession, hloop]
    rw [hfin]
    exact hT.2.2.1
  · simp only [runSession, hloop]
    simp only [List.mem_cons, List.mem_append]
    exact Or.inr (Or.inl hT.2.2.2.2.1)
  · intro nm i tn hmem
    simp only [runSession, hloop] at hmem
    simp only [List.mem_cons, List.mem_append, List.not_mem_nil, or_false,
      List.mem_singleton] at hmem
    rcases hmem with h1 | h1 | h1
    · exact absurd h1 (by simp)
    · exact hT.2.2.2.2.2 nm i tn h1
    · exact absurd h1 (by simp)

end AgenticLoop

namespace AgenticLoop

theorem summarizeStep_noLimit (cfg : SessionConfig) (o : SummarizeOracle) (msgs : List Message)
    (h : effTokenLimit cfg = none) : summarizeStep cfg o msgs = { messages := msgs, events := [] } := by
  unfold summarizeStep
  rw [h]

theorem runTurn_textOnly_proj (cfg : SessionConfig) (r : GenResult) (st : SessionState)
    (hcalls : r.toolCalls = []) (hlim : effTokenLimit cfg = none) :
    (runTurn cfg (TurnOutcome.success r) st).state.messages = st.messages ++ r.responseMessages
    ∧ (runTurn cfg (TurnOutcome.success r) st).state.turnCount = st.turnCount + 1
    ∧ (runTurn cfg (TurnOutcome.success r) st).state.shouldContinue = st.shouldContinue
    ∧ (runTurn cfg (TurnOutcome.success r) st).fault = none := by
  refine ⟨?_, ?_, ?_, ?_⟩
  · simp only [runTurn]
    rw [if_pos hcalls]
    simp only [summarizeStep_noLimit cfg _ _ hlim, applyText_messages]
  · simp only [runTurn]
    rw [if_pos hcalls]
    simp only [summarizeStep_noLimit cfg _ _ hlim, applyText_turnCount]
  · simp only [runTurn]
    rw [if_pos hcalls]
    simp only [summarizeStep_noLimit cfg _ _ hlim, applyText_shouldContinue]
  · simp only [runTurn]
    rw [if_pos hcalls]

theorem runTurn_fault_none (cfg : SessionConfig) (o : TurnOutcome) (st : SessionState)
    (h : ∀ f, o ≠ TurnOutcome.fault f) : (runTurn cfg o st).fault = none := by
  cases o with
  | fault f => exact absurd rfl (h f)
  | backendError msg => rfl
  | success r =>
    simp only [runTurn]
    split
    · rfl
    · split <;> rfl

theorem runTurn_backendInvoke_mem (cfg : SessionConfig) (o : TurnOutcome) (st : SessionState)
    (h : ∀ f, o ≠ TurnOutcome.fault f) :
    Event.backendInvoke st.messages (mergeToolsList cfg.tools)
      ∈ (runTurn cfg o st).events := by
  cases o with
  | fault f => exact absurd rfl (h f)
  | backendError msg => simp [runTurn]
  | success r =>
    simp only [runTurn]
    split
    · simp
    · split <;> simp

theorem runLoop_step (cfg : SessionConfig) (script : Nat → TurnOutcome) (maxT : Nat)
    (fuel idleTurns : Nat) (st : SessionState)
    (hcont : st.shouldContinue = true) (hlt : st.turnCount < maxT) :
    runLoop cfg script maxT (fuel + 1) idleTurns st =
      (match (runTurn cfg (script (idleStep idleTurns st).state.turnCount)
          (idleStep idleTurns st).state).fault with
       | some f =>
         { events := (idleStep idleTurns st).events
             ++ (runTurn cfg (script (idleStep idleTurns st).state.turnCount)
                  (idleStep idleTurns st).state).events,
           state := (runTurn cfg (script (idleStep idleTurns st).state.turnCount)
                      (idleStep idleTurns st).state).state,
           fault := some f }
       | none =>
         { events := (idleStep idleTurns st).events
             ++ (runTurn cfg (script (idleStep idleTurns st).state.turnCount)
                  (idleStep idleTurns st).state).events
             ++ (runLoop cfg script maxT fuel (idleStep idleTurns st).counter
                  (runTurn cfg (script (idleStep idleTurns st).state.turnCount)
                    (idleStep idleTurns st).state).state).events,
           state := (runLoop cfg script maxT fuel (idleStep idleTurns st).counter
                      (runTurn cfg (script (idleStep idleTurns st).state.turnCount)
                        (idleStep idleTurns st).state).state).state,
           fault := (runLoop cfg script maxT fuel (idleStep idleTurns st).counter
                      (runTurn cfg (script (idleStep idleTurns st).state.turnCount)
                        (idleStep idleTurns st).state).state).fault }) := by
  simp only [runLoop]
  rw [hcont]
  simp only [Bool.true_and, decide_eq_true_eq]
  rw [if_pos hlt]

theorem idleStep_first_idle (st : SessionState) (h1 : 0 < st.turnCount)
    (h2 : isAgentIdle st = true) :
    idleStep 0 st = { events := [], counter := 1, state := st } := by
  unfold idleStep
  simp [h1, h2]

theorem idleStep_inject (st : SessionState) (h1 : 0 < st.turnCount)
    (h2 : isAgentIdle st = true) :
    idleStep 1 st =
      { events := [Event.messagesUpdate (st.messages ++ [reminderMessage])],
        counter := 0,
        state := { st with messages := st.messages ++ [reminderMessage] } } := by
  unfold idleStep
  simp [h1, h2]

theorem isAgentIdle_of_getLast (st : SessionState) (m : Message)
    (h : st.messages.getLast? = some m) (hrole : m.role = Role.assistant) :
    isAgentIdle st = true := by
  unfold isAgentIdle
  rw [h]
  simp [hrole]

end AgenticLoop

namespace AgenticLoop

theorem sessionLoop_reminder_third_invoke (cfg : SessionConfig) (script : Nat → TurnOutcome)
    (r1 r2 : GenResult) (m1 m2 : Message)
    (hfresh : cfg.initialMessages = none)
    (hlim : cfg.tokenLimit = none)
    (hmax : 3 ≤ maxTurnsEff cfg)
    (hs0 : script 0 = TurnOutcome.success r1) (hs1 : script 1 = TurnOutcome.success r2)
    (hc1 : r1.toolCalls = []) (hc2 : r2.toolCalls = [])
    (hm1 : r1.responseMessages.getLast? = some m1) (hrole1 : m1.role = Role.assistant)
    (hm2 : r2.responseMessages.getLast? = some m2) (hrole2 : m2.role = Role.assistant)
    (hnf : ∀ f, script 2 ≠ TurnOutcome.fault f) :
    Event.backendInvoke ((initialState cfg).messages ++ r1.responseMessages
        ++ r2.responseMessages ++ [reminderMessage]) (mergeToolsList cfg.tools)
      ∈ (sessionLoopOutput cfg script).events := by
  have hlim' : effTokenLimit cfg = none := by unfold effTokenLimit; rw [hlim]
  have h0 : (initialState cfg).turnCount = 0 := initialState_fresh_turnCount cfg hfresh
  have hsc0 : (initialState cfg).shouldContinue = true := initialState_shouldContinue cfg
  obtain ⟨k, hk⟩ : ∃ k, maxTurnsEff cfg = k + 3 := ⟨maxTurnsEff cfg - 3, by omega⟩
  have hne1 : r1.responseMessages ≠ [] := by
    intro he; rw [he] at hm1; simp at hm1
  have hne2 : r2.responseMessages ≠ [] := by
    intro he; rw [he] at hm2; simp at hm2
  set st1 := (runTurn cfg (TurnOutcome.success r1) (initialState cfg)).state with hst1
  have p1 := runTurn_textOnly_proj cfg r1 (initialState cfg) hc1 hlim'
  have h1tc : st1.turnCount = 1 := by rw [hst1, p1.2.1, h0]
  have h1sc : st1.shouldContinue = true := by rw [hst1, p1.2.2.1, hsc0]
  have h1idle : isAgentIdle st1 = true := by
    refine isAgentIdle_of_getLast _ m1 ?_ hrole1
    rw [hst1, p1.1, List.getLast?_append_of_ne_nil _ hne1, hm1]
  set st2 := (runTurn cfg (TurnOutcome.success r2) st1).state with hst2
  have p2 := runTurn_textOnly_proj cfg r2 st1 hc2 hlim'
  have h2tc : st2.turnCount = 2 := by rw [hst2, p2.2.1, h1tc]
  have h2sc : st2.shouldContinue = true := by rw [hst2, p2.2.2.1, h1sc]
  have h2idle : isAgentIdle st2 = true := by
    refine isAgentIdle_of_getLast _ m2 ?_ hrole2
    rw [hst2, p2.1, List.getLast?_append_of_ne_nil _ hne2, hm2]
  unfold sessionLoopOutput
  rw [hk]
  rw [runLoop_step cfg script (k + 3) (k + 3) 0 (initialState cfg) hsc0 (by omega)]
  rw [idleStep_zeroTurn 0 (initialState cfg) h0]
  dsimp only
  rw [h0, hs0, p1.2.2.2]
  dsimp only
  rw [show k + 3 = k + 2 + 1 from rfl]
  rw [runLoop_step cfg script (k + 2 + 1) (k + 2) 0 st1 h1sc (by omega)]
  rw [idleStep_first_idle st1 (by omega) h1idle]
  dsimp only
  rw [h1tc, hs1, p2.2.2.2]
  dsimp only
  rw [show k + 2 = k + 1 + 1 from rfl]
  rw [runLoop_step cfg script (k + 1 + 1 + 1) (k + 1) 1 st2 h2sc (by omega)]
  rw [idleStep_inject st2 (by omega) h2idle]
  dsimp only
  rw [h2tc]
  have h3f := runTurn_fault_none cfg (script 2)
    { messages := st2.messages ++ [reminderMessage], turnCount := 2,
      finalOutput := st2.finalOutput, shouldContinue := st2.shouldContinue,
      taskResult := st2.taskResult, completionReason := st2.completionReason,
      suspendInfo := st2.suspendInfo } hnf
  have hinv := runTurn_backendInvoke_mem cfg (script 2)
    { messages := st2.messages ++ [reminderMessage], turnCount := 2,
      finalOutput := st2.finalOutput, shouldContinue := st2.shouldContinue,
      taskResult := st2.taskResult, completionReason := st2.completionReason,
      suspendInfo := st2.suspendInfo } hnf
  rw [h3f]
  try dsimp only
  try dsimp only at hinv
  have hmsg : st2.messages
      = (initialState cfg).messages ++ r1.responseMessages ++ r2.responseMessages := by
    rw [hst2, p2.1, hst1, p1.1]
  rw [show (initialState cfg).messages ++ r1.responseMessages ++ r2.responseMessages
        ++ [reminderMessage] = st2.messages ++ [reminderMessage] from by rw [hmsg]]
  simp only [List.nil_append, List.append_assoc, List.mem_append, List.mem_cons]
  exact Or.inr (Or.inr (Or.inr (Or.inl hinv)))

end AgenticLoop

namespace AgenticLoop

/-- C7: in a fresh session (no token limit) whose first two turns produce
assistant text with zero tool calls, the third backend invocation is made
on a history whose last entry is the injected reminder user message —
i.e. the reminder is injected before the third invocation; and the idle
streak injection in general resets the streak counter to 0 immediately,
only appends the reminder message, and leaves every other state field
(including the continuation flag) untouched, so it never terminates the
session. -/
theorem C7_idle_reminder (cfg : SessionConfig) (script : Nat → TurnOutcome)
    (r1 r2 : GenResult) (m1 m2 : Message)
    (hfresh : cfg.initialMessages = none)
    (hlim : cfg.tokenLimit = none)
    (hmax : 3 ≤ maxTurnsEff cfg)
    (hs0 : script 0 = TurnOutcome.success r1) (hs1 : script 1 = TurnOutcome.success r2)
    (hc1 : r1.toolCalls = []) (hc2 : r2.toolCalls = [])
    (hm1 : r1.responseMessages.getLast? = some m1) (hrole1 : m1.role = Role.assistant)
    (hm2 : r2.responseMessages.getLast? = some m2) (hrole2 : m2.role = Role.assistant)
    (hnf : ∀ f, script 2 ≠ TurnOutcome.fault f) :
    Event.backendInvoke ((initialState cfg).messages ++ r1.responseMessages
        ++ r2.responseMessages ++ [reminderMessage]) (mergeToolsList cfg.tools)
      ∈ (runSession cfg script).2
    ∧ (∀ idle st, 0 < st.turnCount → isAgentIdle st = true → 1 ≤ idle →
        idleStep idle st =
          { events := [Event.messagesUpdate (st.messages ++ [reminderMessage])],
            counter := 0,
            state := { st with messages := st.messages ++ [reminderMessage] } }) := by
  constructor
  · have hE := sessionLoop_reminder_third_invoke cfg script r1 r2 m1 m2 hfresh hlim hmax
      hs0 hs1 hc1 hc2 hm1 hrole1 hm2 hrole2 hnf
    simp only [runSession]
    rcases hf : (sessionLoopOutput cfg script).fault with _ | f <;> simp only [hf] <;>
      simp only [List.mem_cons, List.mem_append]
    · exact Or.inr (Or.inl hE)
    · exact Or.inr (Or.inl hE)
  · intro idle st h1 h2 h3
    have h4 : idle + 1 ≥ 2 := by omega
    unfold idleStep
    simp [h1, h2, h4]

end AgenticLoop

namespace AgenticLoop

theorem idleStep_notIdle (idleTurns : Nat) (st : SessionState)
    (h : isAgentIdle st = false) :
    idleStep idleTurns st = { events := [], counter := 0, state := st } := by
  unfold idleStep
  simp [h]

theorem runLoop_cond_false (cfg : SessionConfig) (script : Nat → TurnOutcome) (maxT : Nat)
    (fuel idleTurns : Nat) (st : SessionState)
    (h : (st.shouldContinue && decide (st.turnCount < maxT)) = false) :
    runLoop cfg script maxT fuel idleTurns st = { events := [], state := st, fault := none } := by
  cases fuel with
  | zero => rfl
  | succ n => simp [runLoop, h]

theorem runTurn_success_events_head (cfg : SessionConfig) (r : GenResult) (st : SessionState) :
    ∃ rest, (runTurn cfg (TurnOutcome.success r) st).events
      = Event.turnStart (st.turnCount + 1)
        :: Event.backendInvoke st.messages (mergeToolsList cfg.tools) :: rest := by
  simp only [runTurn]
  split
  · exact ⟨_, rfl⟩
  · split <;> exact ⟨_, rfl⟩

/-- C8 counterexample: resuming from a history ending in an assistant
message, with a backend that answers in text only, the session does
invoke the backend on an assistant-terminated history (at the second
turn, before the idle threshold is reached), contradicting the claim
that such an invocation never happens. -/
theorem C8_counterexample :
    (runSession cfgResumeAssistant scriptAllText).2.any isAssistantTerminatedInvoke = true := by
  decide

/-- C8 (amended): when a session is resumed from a non-empty history
whose last entry has role assistant, the synthetic please-continue user
message is appended before the first turn, so the initial history ends
with a user message and the FIRST backend invocation of the session is
made on that user-terminated history (later invocations may be
assistant-terminated, e.g. after a text-only turn below the idle
threshold). -/
theorem C8_please_continue_first_invoke (cfg : SessionConfig) (script : Nat → TurnOutcome)
    (ms : List Message) (m : Message)
    (h1 : cfg.initialMessages = some ms) (h2 : ms.getLast? = some m)
    (h3 : m.role = Role.assistant) :
    (initialState cfg).messages = ms ++ [pleaseContinueMessage]
    ∧ (initialState cfg).messages.getLast? = some pleaseContinueMessage
    ∧ (∀ e, (runSession cfg script).2.find? isBackendInvokeEv = some e →
        ∃ tl, e = Event.backendInvoke (ms ++ [pleaseContinueMessage]) tl) := by
  have hne : ms ≠ [] := by intro he; rw [he] at h2; simp at h2
  have him : effInitialMessages cfg = ms := by
    unfold effInitialMessages; rw [h1]; rfl
  have hmsg : (initialState cfg).messages = ms ++ [pleaseContinueMessage] := by
    unfold initialState
    dsimp only
    rw [him]
    rw [if_neg (by simp [hne])]
    rw [h2]
    simp [h3]
  have hlast : (initialState cfg).messages.getLast? = some pleaseContinueMessage := by
    rw [hmsg, List.getLast?_append_of_ne_nil _ (by simp)]
    rfl
  have hidle : isAgentIdle (initialState cfg) = false := by
    unfold isAgentIdle
    rw [hlast]
    rfl
  refine ⟨hmsg, hlast, fun e hfind => ?_⟩
  simp only [runSession] at hfind
  rcases hcond : ((initialState cfg).shouldContinue
      && decide ((initialState cfg).turnCount < maxTurnsEff cfg)) with _ | _
  · -- the loop never runs: there is no backend invocation at all
    have hloopeq : sessionLoopOutput cfg script
        = { events := [], state := initialState cfg, fault := none } := by
      unfold sessionLoopOutput
      exact runLoop_cond_false cfg script (maxTurnsEff cfg) (maxTurnsEff cfg + 1) 0
        (initialState cfg) hcond
    rw [hloopeq] at hfind
    simp [List.find?, isBackendInvokeEv] at hfind
  · -- the loop runs its first turn on the initial state
    have hand := (Bool.and_eq_true _ _).mp hcond
    have hcont : (initialState cfg).shouldContinue = true := hand.1
    have hlt : (initialState cfg).turnCount < maxTurnsEff cfg := by
      simpa using hand.2
    have hstep := runLoop_step cfg script (maxTurnsEff cfg) (maxTurnsEff cfg) 0
      (initialState cfg) hcont hlt
    rcases hlf : (sessionLoopOutput cfg script).fault with _ | f0 <;>
      simp only [hlf] at hfind <;>
      simp only [List.find?, isBackendInvokeEv] at hfind <;>
      unfold sessionLoopOutput at hfind <;>
      rw [hstep, idleStep_notIdle 0 (initialState cfg) hidle] at hfind <;>
      dsimp only at hfind <;>
      rcases ho : script (initialState cfg).turnCount with msg | r | f <;> rw [ho] at hfind
    · rw [show (runTurn cfg (TurnOutcome.backendError msg) (initialState cfg)).fault
          = none from rfl] at hfind
      dsimp only at hfind
      simp only [List.nil_append, List.cons_append, List.append_assoc] at hfind
      simp only [List.find?, isBackendInvokeEv] at hfind
      rw [hmsg] at hfind
      injection hfind with h4
      exact ⟨mergeToolsList cfg.tools, h4.symm⟩
    · rcases runTurn_success_events_head cfg r (initialState cfg) with ⟨rest, hev⟩
      rw [runTurn_fault_none cfg (TurnOutcome.success r) (initialState cfg)
        (by intro f hq; exact absurd hq (by simp))] at hfind
      dsimp only at hfind
      rw [hev] at hfind
      simp only [List.nil_append, List.cons_append, List.append_assoc] at hfind
      simp only [List.find?, isBackendInvokeEv] at hfind
      rw [hmsg] at hfind
      injection hfind with h4
      exact ⟨mergeToolsList cfg.tools, h4.symm⟩
    · rw [show (runTurn cfg (TurnOutcome.fault f) (initialState cfg)).fault
          = some f from rfl] at hfind
      dsimp only at hfind
      simp [List.find?, isBackendInvokeEv] at hfind
    · rw [show (runTurn cfg (TurnOutcome.backendError msg) (initialState cfg)).fault
          = none from rfl] at hfind
      dsimp only at hfind
      simp only [List.nil_append, List.cons_append, List.append_assoc] at hfind
      simp only [List.find?, isBackendInvokeEv] at hfind
      rw [hmsg] at hfind
      injection hfind with h4
      exact ⟨mergeToolsList cfg.tools, h4.symm⟩
    · rcases runTurn_success_events_head cfg r (initialState cfg) with ⟨rest, hev⟩
      rw [runTurn_fault_none cfg (TurnOutcome.success r) (initialState cfg)
        (by intro f hq; exact absurd hq (by simp))] at hfind
      dsimp only at hfind
      rw [hev] at hfind
      simp only [List.nil_append, List.cons_append, List.append_assoc] at hfind
      simp only [List.find?, isBackendInvokeEv] at hfind
      rw [hmsg] at hfind
      injection hfind with h4
      exact ⟨mergeToolsList cfg.tools, h4.symm⟩
    · rw [show (runTurn cfg (TurnOutcome.fault f) (initialState cfg)).fault
          = some f from rfl] at hfind
      dsimp only at hfind
      simp [List.find?, isBackendInvokeEv] at hfind

end AgenticLoop

namespace AgenticLoop

/-- C2 witness: the concrete suspending session settles as suspended with
the signalled suspendInfo. -/
theorem C2_witness :
    (runSession cfgFresh5 scriptSuspendFirst).1.completionReason = CompletionReason.suspended
    ∧ (runSession cfgFresh5 scriptSuspendFirst).1.suspendInfo
        = some (SuspendInfo.mk "waiting_for_approval" (some "req-1") 1) :=
  have h := C2_suspension_roundtrip cfgFresh5 scriptSuspendFirst suspendingResult
    [{ toolName := "lookup", output := ordinaryPayload }]
    { toolName := "wait_for_approval", output := suspendPayload } []
    "waiting_for_approval" (some "req-1")
    rfl rfl (by decide) rfl (by decide) (by decide)
  ⟨h.1, h.2.1⟩

/-- C4 witness: the concrete completion turn clears the continuation flag. -/
theorem C4_witness :
    (runTurn cfgFresh (TurnOutcome.success completionResult)
      (initialState cfgFresh)).state.shouldContinue = false :=
  (C4_terminal_stops_processing cfgFresh (initialState cfgFresh) completionResult []
    { toolName := "task_complete",
      output := taskCompleteExecute { summary := "done", result := some "42" } } []
    (by decide) rfl (by decide) (by decide)).1

/-- C5 witness: a concrete failed turn counts toward the turn total. -/
theorem C5_witness :
    (runTurn cfgFresh (TurnOutcome.backendError "boom")
      (initialState cfgFresh)).state.turnCount = (initialState cfgFresh).turnCount + 1 :=
  (C5_backend_error_retry cfgFresh (initialState cfgFresh) "boom").1.1

/-- C7 witness: in the concrete two-idle-turn session the third backend
invocation carries the reminder as last history entry. -/
theorem C7_witness :
    Event.backendInvoke ((initialState cfgFresh5).messages ++ textOnlyResult.responseMessages
        ++ textOnlyResult.responseMessages ++ [reminderMessage]) (mergeToolsList cfgFresh5.tools)
      ∈ (runSession cfgFresh5 scriptTextThenErr).2 :=
  (C7_idle_reminder cfgFresh5 scriptTextThenErr textOnlyResult textOnlyResult msgA msgA
    rfl rfl (by decide) rfl rfl rfl rfl rfl rfl rfl rfl
    (by intro f h; simp [scriptTextThenErr] at h)).1

/-- C8 witness: the concrete resumed session appends the please-continue
message to its saved history. -/
theorem C8_witness :
    (initialState cfgResumeAssistant).messages
      = [Message.mk Role.user "hi", Message.mk Role.assistant "hello"]
        ++ [pleaseContinueMessage] :=
  (C8_please_continue_first_invoke cfgResumeAssistant scriptAllText
    [Message.mk Role.user "hi", Message.mk Role.assistant "hello"]
    (Message.mk Role.assistant "hello") rfl rfl rfl).1

/-- C9 witness: the reserved tool resolves to the built-in in a concrete
empty catalog. -/
theorem C9_witness :
    lookupTool (mergeToolsList []) "task_complete" = some taskCompleteToolSpec :=
  (C9_taskComplete_tool [] { summary := "s", result := none } cfgFresh scriptAllErr [] []).1

/-- C10 witness: with an empty resumed-history array and the starting
message "go", the derived initial message is "go". -/
theorem C10_witness :
    derivedInitialMessage { cfgFresh with initialMessages := some [] } = "go" :=
  (C10_empty_initialMessages cfgFresh scriptAllErr).2.2.2.2 "go" rfl (by decide)

end AgenticLoop
